import Mathlib

/-!
Verification development for the `evchargeapp` EV charge-screenshot parser.

The Python sources (`charge_parser.py`, `plugins/base.py`, `plugins/fordpass.py`)
are shallowly embedded here.  Python strings are modelled as `List Char`
(`Str` below), which is faithful for the ASCII OCR text this program
processes; Python `re` searches are embedded as hand-rolled scanners that
reproduce the leftmost-match / ordered-alternation / greedy-with-backtracking
semantics of each concrete pattern used by the program.  Machine floats only
appear as plugin detection scores, which the program merely compares; they are
modelled as rationals, on which comparison is exact just as it is on the
floats actually produced (multiples of 0.25).
-/

set_option maxRecDepth 20000

abbrev Str := List Char

/-- Python `str.isspace` restricted to the ASCII whitespace characters
(space, tab, newline, carriage return, vertical tab, form feed). -/
def pySpaceChar (c : Char) : Bool :=
  c == ' ' || c == '\t' || c == '\n' || c == '\r' || c == '\x0b' || c == '\x0c'

/-- Python `str.lstrip()` (ASCII). -/
def pyLstrip (s : Str) : Str := s.dropWhile pySpaceChar

/-- Python `str.strip()` (ASCII). -/
def pyStrip (s : Str) : Str :=
  ((s.dropWhile pySpaceChar).reverse.dropWhile pySpaceChar).reverse

/-- Python `str.lower()` (ASCII). -/
def pyLower (s : Str) : Str := s.map Char.toLower

/-- Python `str.rstrip(":")`. -/
def rstripColons (s : Str) : Str := (s.reverse.dropWhile (· == ':')).reverse

/-- Python `str.lstrip(":")`. -/
def lstripColons (s : Str) : Str := s.dropWhile (· == ':')

/-- Python `str.startswith`. -/
def isPre (p s : Str) : Bool := p.isPrefixOf s

/-- Python's test `c in "+-($"` from `extract_label_value` (the source also
checks `!= "("`, which is redundant). -/
def valueStartChar (c : Char) : Bool :=
  c == '+' || c == '-' || c == '(' || c == '$'

/-!
## Label Locator — `extract_label_value` (fordpass.py lines 37-64,
identical copy in charge_parser.py lines 100-127)
-/

/-- The follower scan inside `extract_label_value`: starting *after* a direct
label match, return the first non-blank (stripped) line that is not a repeat
of the label (`follower_lower == target or follower_lower.startswith(target + " ")`),
or `none` when every remaining line is blank or a label echo. -/
def label_follower (target : Str) : List Str → Option Str
  | [] => none
  | f :: rest =>
    let fc := pyStrip f
    if fc.isEmpty then label_follower target rest
    else
      let fl := pyLower fc
      if fl == target || isPre (target ++ [' ']) fl then label_follower target rest
      else some fc

/-- The `inline_value` computation of `extract_label_value`:
`clean[len(label):].strip().lstrip(":").strip()`, zeroed out unless it begins
with a digit or one of `+ - ( $`.  Only consulted when the line is not a
direct match and `lowered.startswith(target + " ")`. -/
def inline_value_of (clean lowered target label : Str) : Str :=
  if isPre (target ++ [' ']) lowered then
    let v := pyStrip (lstripColons (pyStrip (clean.drop label.length)))
    match v with
    | [] => []
    | c :: _ => if !c.isDigit && !valueStartChar c then [] else v
  else []

/-- Main loop of `extract_label_value`.  `target = label.lower()`. -/
def elv_loop (label target : Str) : List Str → Str
  | [] => []
  | line :: rest =>
    let clean := pyStrip line
    if clean.isEmpty then elv_loop label target rest
    else
      let lowered := pyLower clean
      let is_direct := rstripColons lowered == target
      let inlineVal := if is_direct then [] else inline_value_of clean lowered target label
      if is_direct || !inlineVal.isEmpty then
        if !inlineVal.isEmpty then inlineVal
        else
          -- direct match: take the first qualifying follower; when there is
          -- none the Python `for` loop falls through and the outer scan
          -- continues with the next line.
          match label_follower target rest with
          | some f => f
          | none => elv_loop label target rest
      else elv_loop label target rest

/-- `extract_label_value(lines, label)` — return the text immediately
associated with the provided label. -/
def extract_label_value (lines : List Str) (label : Str) : Str :=
  elv_loop label (pyLower label) lines

/-!
Spec-side (claim C1) Label Locator.  `find_label_value_claim` follows the
claim's words: scan top to bottom; the *first* matching line wins and
scanning never restarts.  A line matches directly if, case-insensitively and
trimmed, it equals the label (optionally with trailing colon(s)); it matches
inline if it starts with the label plus a space and the remainder, after
stripping leading colon(s) and surrounding whitespace, begins with a digit,
`+`, `-`, `(` or `$`.  On a direct match the result is the next non-blank
line that is not itself a repeat of the label (empty if there is none, since
per the claim scanning never restarts); on an inline match the result is the
trimmed remainder; if no line matches the result is empty.
-/

def claim_loop (label target : Str) : List Str → Str
  | [] => []
  | line :: rest =>
    let clean := pyStrip line
    if clean.isEmpty then claim_loop label target rest
    else
      let lowered := pyLower clean
      if rstripColons lowered == target then
        -- direct match: first match wins, scanning never restarts
        match label_follower target rest with
        | some f => f
        | none => []
      else
        let v := inline_value_of clean lowered target label
        if !v.isEmpty then v else claim_loop label target rest

def find_label_value_claim (lines : List Str) (label : Str) : Str :=
  claim_loop label (pyLower label) lines

/-- Amended spec-side Label Locator: identical to `find_label_value_claim`
except that a direct match all of whose followers are blank or label echoes
does not end the scan — scanning continues with the lines after the matching
one (this is the single point where the code deviates from claim C1). -/
def amended_loop (label target : Str) : List Str → Str
  | [] => []
  | line :: rest =>
    let clean := pyStrip line
    if clean.isEmpty then amended_loop label target rest
    else
      let lowered := pyLower clean
      if rstripColons lowered == target then
        match label_follower target rest with
        | some f => f
        | none => amended_loop label target rest
      else
        let v := inline_value_of clean lowered target label
        if !v.isEmpty then v else amended_loop label target rest

def find_label_value_amended (lines : List Str) (label : Str) : Str :=
  amended_loop label (pyLower label) lines

/-!
## Field extractor patterns (fordpass.py lines 9-17, charge_parser.py lines 20-29)

Each Python `re` pattern used by the program is embedded as a dedicated
scanner with `re.search` semantics: positions are tried left to right, and at
a position alternatives and quantifier lengths are tried in the regex's
backtracking order.  Greedy quantifiers whose shorter matches provably cannot
let the remainder of the pattern succeed (because the character they would
give back is excluded from the follow set) are implemented maximal-munch;
each such spot is noted.
-/

/-- Python `\w` (ASCII): letters, digits, underscore. -/
def isWordChar (c : Char) : Bool := c.isAlpha || c.isDigit || c == '_'

/-- Maximal leading digit run and the remaining text (`\d+` greedy). -/
def takeDigits : Str → Str × Str
  | [] => ([], [])
  | c :: rest =>
    if c.isDigit then
      let (ds, r) := takeDigits rest
      (c :: ds, r)
    else ([], c :: rest)

/-- Leftmost-match driver: try `matchAt` at every position, left to right. -/
def scanFor (matchAt : Str → Option Str) : Str → Option Str
  | [] => none
  | c :: rest =>
    match matchAt (c :: rest) with
    | some m => some m
    | none => scanFor matchAt rest

/-- `\s*%` after the captured digits of `PERCENT_PATTERN`. -/
def pctAfter (s : Str) : Bool :=
  match s.dropWhile pySpaceChar with
  | '%' :: _ => true
  | _ => false

/-- Backtracking over the `\d{1,3}` capture of `PERCENT_PATTERN`, longest
first; `run`/`rest` come from `takeDigits`. -/
def pctTryLen (run rest : Str) : Nat → Option Str
  | 0 => none
  | j + 1 =>
    if pctAfter (run.drop (j + 1) ++ rest) then some (run.take (j + 1))
    else pctTryLen run rest j

/-- `PERCENT_PATTERN = (\d{1,3})\s*%` anchored at the current position;
returns the captured digits. -/
def pctMatchAt (s : Str) : Option Str :=
  let (run, rest) := takeDigits s
  pctTryLen run rest (min 3 run.length)

/-- `PERCENT_PATTERN.search`, returning `group(1)`. -/
def percent_search (s : Str) : Option Str := scanFor pctMatchAt s

/-- `[:.]\d{2}\b` — tail of `TIME_PATTERN` after the hour digits; returns the
consumed characters. -/
def timeTail : Str → Option Str
  | c :: d1 :: d2 :: rest =>
    if (c == ':' || c == '.') && d1.isDigit && d2.isDigit &&
        (match rest with | [] => true | x :: _ => !isWordChar x) then
      some [c, d1, d2]
    else none
  | _ => none

/-- Backtracking over the `\d{1,2}` hour of `TIME_PATTERN`, longest first. -/
def timeTryHour (run rest : Str) : Nat → Option Str
  | 0 => none
  | j + 1 =>
    match timeTail (run.drop (j + 1) ++ rest) with
    | some tl => some (run.take (j + 1) ++ tl)
    | none => timeTryHour run rest j

/-- `TIME_PATTERN = \b\d{1,2}[:.]\d{2}\b` anchored at the current position
(the leading word boundary is checked by the caller); returns `group(0)`. -/
def timeMatchAt (s : Str) : Option Str :=
  let (run, rest) := takeDigits s
  timeTryHour run rest (min 2 run.length)

/-- `TIME_PATTERN.search`: scan left to right carrying the previous character
so the leading `\b` can be decided (the first matched character is a digit,
so the boundary holds iff there is no previous character or it is not a word
character). -/
def time_search_raw (prev : Option Char) : Str → Option Str
  | [] => none
  | c :: rest =>
    let bOK := match prev with | none => true | some p => !isWordChar p
    match (if bOK then timeMatchAt (c :: rest) else none) with
    | some m => some m
    | none => time_search_raw (some c) rest

/-- The `.replace(".", ":")` normalization applied to matched times in
fordpass.py (`find_time`, `extract_additional_details`). -/
def normalizeTime (s : Str) : Str := s.map (fun c => if c == '.' then ':' else c)

/-- `\s*kWh\b` (case-insensitive) — tail of `KWH_PATTERN`. -/
def kwhTail (s : Str) : Bool :=
  match s.dropWhile pySpaceChar with
  | k :: w :: h :: rest =>
    k.toLower == 'k' && w.toLower == 'w' && h.toLower == 'h' &&
      (match rest with | [] => true | x :: _ => !isWordChar x)
  | _ => false

/-- `KWH_PATTERN = (\d+(?:\.\d+)?)\s*kWh\b` (ci) anchored at the current
position; returns `group(1)`.  `\d+` is maximal-munch: giving a digit back
leaves a digit where `.`/`\s`/`k` is required, so shorter matches cannot
succeed.  The optional fraction is tried greedily with explicit fallback. -/
def kwhMatchAt (s : Str) : Option Str :=
  match takeDigits s with
  | ([], _) => none
  | (run, rest) =>
    match rest with
    | '.' :: rest2 =>
      match takeDigits rest2 with
      | ([], _) => if kwhTail rest then some run else none
      | (frac, rest3) =>
        if kwhTail rest3 then some (run ++ '.' :: frac)
        else if kwhTail rest then some run
        else none
    | _ => if kwhTail rest then some run else none

/-- `KWH_PATTERN.search`, returning `group(1)`. -/
def kwh_search (s : Str) : Option Str := scanFor kwhMatchAt s

/-- The character class `[\d,.]` of `COST_PATTERN`. -/
def costClassChar (c : Char) : Bool := c.isDigit || c == ',' || c == '.'

/-- `COST_PATTERN = \$[\d,.]+` anchored at the current position; returns
`group(0)` (the `+` is greedy and nothing follows it, so maximal-munch). -/
def costMatchAt : Str → Option Str
  | '$' :: rest =>
    let run := rest.takeWhile costClassChar
    if run.isEmpty then none else some ('$' :: run)
  | _ => none

/-- `COST_PATTERN.search`, returning `group(0)`. -/
def cost_search (s : Str) : Option Str := scanFor costMatchAt s

/-- `\((?:\+)?(\d+)\s*mi\)` (the charge-miles pattern) anchored at the
current position; returns `group(1)`.  The optional `+` and the greedy `\d+`
are deterministic here: the give-back character could only be `+` or a digit,
neither of which can start `\d`/`\s*mi)`. -/
def milesMatchAt : Str → Option Str
  | '(' :: rest =>
    let rest1 := match rest with | '+' :: r => r | _ => rest
    match takeDigits rest1 with
    | ([], _) => none
    | (ds, rest2) =>
      match rest2.dropWhile pySpaceChar with
      | 'm' :: 'i' :: ')' :: _ => some ds
      | _ => none
  | _ => none

/-- Search for the charge-miles pattern, returning `group(1)`. -/
def miles_search (s : Str) : Option Str := scanFor milesMatchAt s

/-- `\s*hr` (ci) — tail of the hour pattern in `parse_duration_minutes`. -/
def hrTail (s : Str) : Bool :=
  match s.dropWhile pySpaceChar with
  | h :: r :: _ => h.toLower == 'h' && r.toLower == 'r'
  | _ => false

/-- `(\d+)\s*hr` (ci) anchored at the current position (maximal-munch `\d+`
as for `KWH_PATTERN`); returns `group(1)`. -/
def hrMatchAt (s : Str) : Option Str :=
  match takeDigits s with
  | ([], _) => none
  | (run, rest) => if hrTail rest then some run else none

/-- `re.search(r"(\d+)\s*hr", ..., re.IGNORECASE)`, returning `group(1)`. -/
def hr_search (s : Str) : Option Str := scanFor hrMatchAt s

/-- `\s*min` (ci) — tail of the minute pattern in `parse_duration_minutes`. -/
def minTail (s : Str) : Bool :=
  match s.dropWhile pySpaceChar with
  | m :: i :: n :: _ => m.toLower == 'm' && i.toLower == 'i' && n.toLower == 'n'
  | _ => false

/-- `(\d+)\s*min` (ci) anchored at the current position; returns `group(1)`. -/
def minMatchAt (s : Str) : Option Str :=
  match takeDigits s with
  | ([], _) => none
  | (run, rest) => if minTail rest then some run else none

/-- `re.search(r"(\d+)\s*min", ..., re.IGNORECASE)`, returning `group(1)`. -/
def min_search (s : Str) : Option Str := scanFor minMatchAt s

/-- Digit-string to `Nat` — Python `int()` applied to a regex `\d+` capture. -/
def digitsToNat (s : Str) : Nat :=
  s.foldl (fun acc c => acc * 10 + (c.toNat - '0'.toNat)) 0

/-- `str(n)` for a natural number. -/
def natToStr (n : Nat) : Str := Nat.toDigits 10 n

/-!
## `DATE_PATTERN` (fordpass.py lines 9-13) and `parse_date_to_iso`
(fordpass.py lines 113-136, identical copy in charge_parser.py lines 148-171)
-/

/-- The month-name alternation of `DATE_PATTERN` and of `%B`, with month
numbers.  The names are kept in the pattern's order; no name is a prefix of
another, so ordered-alternation and longest-first matching coincide. -/
def monthTable : List (Str × Nat) :=
  [("january".toList, 1), ("february".toList, 2), ("march".toList, 3),
   ("april".toList, 4), ("may".toList, 5), ("june".toList, 6),
   ("july".toList, 7), ("august".toList, 8), ("september".toList, 9),
   ("october".toList, 10), ("november".toList, 11), ("december".toList, 12)]

/-- Case-insensitive month-name match at the current position, returning the
raw consumed text and the rest. -/
def matchMonthAt (s : Str) : Option (Str × Str) :=
  monthTable.findSome? fun p =>
    if isPre p.1 (pyLower s) then some (s.take p.1.length, s.drop p.1.length) else none

/-- The ordinal-suffix alternation `st|nd|rd|th`, case-insensitive (the
alternatives are two letters each and pairwise distinct, so order is moot). -/
def ordPair (a b : Char) : Bool :=
  (a.toLower == 's' && b.toLower == 't') || (a.toLower == 'n' && b.toLower == 'd') ||
  (a.toLower == 'r' && b.toLower == 'd') || (a.toLower == 't' && b.toLower == 'h')

/-- Candidates for `(?:st|nd|rd|th)?` after already-consumed day digits, in
greedy order: with the suffix first, then without. -/
def withSuffix (consumed rest : Str) : List (Str × Str) :=
  match rest with
  | a :: b :: rest2 =>
    if ordPair a b then [(consumed ++ [a, b], rest2), (consumed, rest)] else [(consumed, rest)]
  | _ => [(consumed, rest)]

/-- Candidates for the day alternation
`((?:\d{1,2})(?:st|nd|rd|th)?|[iI]st)` of `DATE_PATTERN`, in backtracking
order (two digits before one, suffix before no suffix, `[iI]st` last; with
`re.IGNORECASE` the literal letters also match their upper-case forms). -/
def dayCandsAt (s : Str) : List (Str × Str) :=
  (match s with
   | a :: b :: rest =>
     if a.isDigit && b.isDigit then withSuffix [a, b] rest ++ withSuffix [a] (b :: rest)
     else if a.isDigit then withSuffix [a] (b :: rest)
     else []
   | [a] => if a.isDigit then [([a], [])] else []
   | [] => [])
  ++ (match s with
      | a :: b :: c :: rest =>
        if (a == 'i' || a == 'I') && b.toLower == 's' && c.toLower == 't' then
          [([a, b, c], rest)]
        else []
      | _ => [])

/-- `\d{4}` at the current position (no trailing constraint). -/
def yearAt (s : Str) : Option Str :=
  let ds := s.take 4
  if ds.length == 4 && ds.all Char.isDigit then some ds else none

/-- The `\s+\d{4}` branch of `DATE_PATTERN`'s separator-plus-year suffix
(`\s+` maximal: a shorter run leaves whitespace where a digit is needed). -/
def sepYearWs (s : Str) : Option Str :=
  let ws := s.takeWhile pySpaceChar
  if ws.isEmpty then none
  else
    match yearAt (s.dropWhile pySpaceChar) with
    | some y => some (ws ++ y)
    | none => none

/-- `(?:,\s*|\s+)(\d{4})` — ordered alternation, comma branch first. -/
def sepYearAt (s : Str) : Option Str :=
  match s with
  | ',' :: rest =>
    let ws := rest.takeWhile pySpaceChar
    (match yearAt (rest.dropWhile pySpaceChar) with
     | some y => some (',' :: (ws ++ y))
     | none => sepYearWs (',' :: rest))
  | _ => sepYearWs s

/-- `DATE_PATTERN` anchored at the current position, returning `group(0)`. -/
def dateMatchAt (s : Str) : Option Str :=
  match matchMonthAt s with
  | none => none
  | some (mraw, rest) =>
    let ws := rest.takeWhile pySpaceChar
    if ws.isEmpty then none
    else
      (dayCandsAt (rest.dropWhile pySpaceChar)).findSome? fun dc =>
        (sepYearAt dc.2).map fun sy => mraw ++ ws ++ dc.1 ++ sy

/-- `DATE_PATTERN.search`, returning `group(0)`. -/
def date_search (s : Str) : Option Str := scanFor dateMatchAt s

/-- "no word character here" — the far side of a `\b` boundary. -/
def bdryOK : Option Char → Bool
  | none => true
  | some p => !isWordChar p

/-- Boundary at the head of the remaining text. -/
def bdryAt : Str → Bool
  | [] => true
  | x :: _ => !isWordChar x

/-- `re.sub(r"\b[iI]st\b", "1", text)` — scan the original text carrying the
previous character for the word boundaries; replacements do not overlap and
scanning resumes after each match. -/
def subIst (prev : Option Char) : Str → Str
  | [] => []
  | c :: 's' :: 't' :: rest2 =>
    if bdryOK prev && (c == 'i' || c == 'I') && bdryAt rest2 then
      '1' :: subIst (some 't') rest2
    else c :: subIst (some c) ('s' :: 't' :: rest2)
  | c :: rest => c :: subIst (some c) rest

/-- `re.sub(r"\b(\d{1,2})(st|nd|rd|th)\b", r"\1", text, flags=re.IGNORECASE)`.
The one-digit backtracking candidate when two digits are available always
fails (the suffix would have to start at a digit), so it is not generated. -/
def subOrd (prev : Option Char) : Str → Str
  | [] => []
  | c :: d2 :: a :: b :: rest =>
    if bdryOK prev && c.isDigit then
      if d2.isDigit then
        -- two day digits; suffix would be (a, b)
        if ordPair a b && bdryAt rest then c :: d2 :: subOrd (some b) rest
        else c :: subOrd (some c) (d2 :: a :: b :: rest)
      else
        -- one day digit; suffix would be (d2, a), boundary at b
        if ordPair d2 a && !isWordChar b then c :: subOrd (some a) (b :: rest)
        else c :: subOrd (some c) (d2 :: a :: b :: rest)
    else c :: subOrd (some c) (d2 :: a :: b :: rest)
  | c :: d2 :: [a] =>
    -- too short for two-digits-plus-suffix; one digit plus suffix can match
    if bdryOK prev && c.isDigit && !d2.isDigit && ordPair d2 a then c :: []
    else c :: subOrd (some c) [d2, a]
  | c :: rest => c :: subOrd (some c) rest

/-- `str.replace(" ,", ",")` — left-to-right, non-overlapping. -/
def replaceSpaceComma : Str → Str
  | ' ' :: ',' :: rest => ',' :: replaceSpaceComma rest
  | c :: rest => c :: replaceSpaceComma rest
  | [] => []

mutual

/-- `re.sub(r"\s+", " ", s)` — collapse every whitespace run to one space. -/
def collapseWs : Str → Str
  | [] => []
  | c :: rest => if pySpaceChar c then ' ' :: collapseWsSkip rest else c :: collapseWs rest

/-- Inside a whitespace run already replaced by one space. -/
def collapseWsSkip : Str → Str
  | [] => []
  | c :: rest => if pySpaceChar c then collapseWsSkip rest else c :: collapseWs rest

end

/-- `\s+(\d{4})` — tail of the comma-insertion pattern, returning the year
digits and the rest after them. -/
def wsYear (s : Str) : Option (Str × Str) :=
  match s with
  | c :: _ =>
    if pySpaceChar c then
      let r := s.dropWhile pySpaceChar
      let y := r.take 4
      if y.length == 4 && y.all Char.isDigit then some (y, r.drop 4) else none
    else none
  | [] => none

/-- `(\d{1,2})\s+(\d{4})` anchored at the current position, returning
`(day digits, year digits, rest)`.  When two day digits are available the
one-digit backtracking candidate always fails (`\s+` cannot match a digit). -/
def dayYearAt (s : Str) : Option (Str × Str × Str) :=
  match s with
  | a :: b :: rest =>
    if a.isDigit then
      if b.isDigit then
        match wsYear rest with
        | some (y, rest2) => some ([a, b], y, rest2)
        | none => none
      else
        match wsYear (b :: rest) with
        | some (y, rest2) => some ([a], y, rest2)
        | none => none
    else none
  | _ => none

/-- `re.sub(r"(\d{1,2})\s+(\d{4})", r"\1, \2", s)` — insert a comma between
day and year; scanning resumes after each replacement.  The fuel argument
(initialized to the text length by `subDayYear`) only bounds the recursion:
every step consumes at least one character, so it is never exhausted. -/
def subDayYearGo : Nat → Str → Str
  | 0, s => s
  | _, [] => []
  | fuel + 1, c :: rest =>
    match dayYearAt (c :: rest) with
    | some (d, y, rest2) => d ++ ',' :: ' ' :: y ++ subDayYearGo fuel rest2
    | none => c :: subDayYearGo fuel rest

def subDayYear (s : Str) : Str := subDayYearGo s.length s

/-- Numeric value of an ASCII digit. -/
def digitVal (c : Char) : Nat := c.toNat - '0'.toNat

/-- CPython `_strptime`'s regex for `%d`, `(3[01]|[12]\d|0[1-9]|[1-9])`:
two digits valued 1-31 (never "00"), else one digit 1-9.  In the two formats
used here `%d` is followed by "," or whitespace, so the one-digit candidate
can never rescue a failed two-digit match and is not generated. -/
def dayTok (s : Str) : Option (Nat × Str) :=
  match s with
  | a :: b :: rest =>
    if a.isDigit && b.isDigit then
      let v := digitVal a * 10 + digitVal b
      if 1 ≤ v && v ≤ 31 then some (v, rest) else none
    else if a.isDigit && 1 ≤ digitVal a then some (digitVal a, b :: rest)
    else none
  | [a] => if a.isDigit && 1 ≤ digitVal a then some (digitVal a, []) else none
  | [] => none

/-- CPython `_strptime`'s regex for `%Y`: exactly four digits. -/
def yearTok (s : Str) : Option (Nat × Str) :=
  match s with
  | a :: b :: c :: d :: rest =>
    if a.isDigit && b.isDigit && c.isDigit && d.isDigit then
      some (digitVal a * 1000 + digitVal b * 100 + digitVal c * 10 + digitVal d, rest)
    else none
  | _ => none

/-- `\s+` — whitespace run required by a literal space in a strptime format. -/
def ws1 (s : Str) : Option Str :=
  match s with
  | c :: _ => if pySpaceChar c then some (s.dropWhile pySpaceChar) else none
  | [] => none

/-- Full month name (ci) for `%B`, with its number. -/
def monthAlt (s : Str) : Option (Nat × Str) :=
  monthTable.findSome? fun p =>
    if isPre p.1 (pyLower s) then some (p.2, s.drop p.1.length) else none

def isLeap (y : Nat) : Bool := (y % 4 == 0 && y % 100 != 0) || y % 400 == 0

def daysInMonth (y m : Nat) : Nat :=
  if m == 2 then (if isLeap y then 29 else 28)
  else if m == 4 || m == 6 || m == 9 || m == 11 then 30 else 31

/-- The validation `datetime(year, month, day)` performs beyond the format
regex (month is already 1-12 here; `%Y` caps the year at 9999). -/
def validYMD (y m d : Nat) : Bool := 1 ≤ y && 1 ≤ d && d ≤ daysInMonth y m

/-- `datetime.strptime(s, "%B %d, %Y")` — full-string match of
month, `\s+`, day, ",", `\s+`, year (ci), then date validation. -/
def strptime_BdY (s : Str) : Option (Nat × Nat × Nat) :=
  match monthAlt s with
  | none => none
  | some (m, r1) =>
    match ws1 r1 with
    | none => none
    | some r2 =>
      match dayTok r2 with
      | none => none
      | some (d, r3) =>
        match r3 with
        | ',' :: r4 =>
          match ws1 r4 with
          | none => none
          | some r5 =>
            match yearTok r5 with
            | some (y, []) => if validYMD y m d then some (y, m, d) else none
            | _ => none
        | _ => none

/-- `datetime.strptime(s, "%B %d %Y")` — like `strptime_BdY` without the
comma. -/
def strptime_BdY2 (s : Str) : Option (Nat × Nat × Nat) :=
  match monthAlt s with
  | none => none
  | some (m, r1) =>
    match ws1 r1 with
    | none => none
    | some r2 =>
      match dayTok r2 with
      | none => none
      | some (d, r3) =>
        match ws1 r3 with
        | none => none
        | some r4 =>
          match yearTok r4 with
          | some (y, []) => if validYMD y m d then some (y, m, d) else none
          | _ => none

/-- Zero-padded two-digit field of `date.isoformat()`. -/
def pad2 (n : Nat) : Str := if n < 10 then '0' :: natToStr n else natToStr n

/-- Zero-padded four-digit year of `date.isoformat()`. -/
def pad4 (n : Nat) : Str :=
  if n < 10 then '0' :: '0' :: '0' :: natToStr n
  else if n < 100 then '0' :: '0' :: natToStr n
  else if n < 1000 then '0' :: natToStr n
  else natToStr n

/-- `date(y, m, d).isoformat()`. -/
def isoDate (y m d : Nat) : Str := pad4 y ++ '-' :: (pad2 m ++ '-' :: pad2 d)

/-- `parse_date_to_iso(date_text)` — normalize and convert textual dates like
"December Ist, 2025" to ISO (fordpass.py lines 113-136). -/
def parse_date_to_iso (date_text : Str) : Str :=
  if date_text.isEmpty then []
  else
    let t1 := subIst none date_text
    let t2 := subOrd none t1
    let t3 := replaceSpaceComma t2
    let t4 := collapseWs (pyStrip t3)
    let normalized := subDayYear t4
    match strptime_BdY normalized with
    | some (y, m, d) => isoDate y m d
    | none =>
      match strptime_BdY2 normalized with
      | some (y, m, d) => isoDate y m d
      | none => []

/-!
## Lines, sections, and the Additional-Details reconciler (fordpass.py)
-/

/-- Python line-break characters recognized by `str.splitlines`. -/
def isLineBreakChar (c : Char) : Bool :=
  c == '\n' || c == '\r' || c == '\x0b' || c == '\x0c' ||
  c == '\x1c' || c == '\x1d' || c == '\x1e' || c == '\x85' ||
  c == '\u2028' || c == '\u2029'

/-- Worker for `str.splitlines`: `acc` is the current line, reversed. -/
def splitlinesGo (acc : Str) : Str → List Str
  | [] => [acc.reverse]
  | '\r' :: '\n' :: [] => [acc.reverse]
  | '\r' :: '\n' :: c :: rest => acc.reverse :: splitlinesGo [] (c :: rest)
  | c :: rest =>
    if isLineBreakChar c then
      match rest with
      | [] => [acc.reverse]
      | c2 :: rest2 => acc.reverse :: splitlinesGo [] (c2 :: rest2)
    else splitlinesGo (c :: acc) rest

/-- Python `str.splitlines()` (`"".splitlines() == []`; no trailing empty
line after a final line break). -/
def splitlines : Str → List Str
  | [] => []
  | c :: rest => splitlinesGo [] (c :: rest)

/-- Python substring containment `needle in haystack`. -/
def containsSub (needle : Str) : Str → Bool
  | [] => needle.isEmpty
  | c :: rest => isPre needle (c :: rest) || containsSub needle rest

/-- `find_percentage(lines, start_idx)` (fordpass.py lines 67-73) — the
caller passes the suffix `lines[start_idx:]`. -/
def find_percentage : List Str → Str
  | [] => []
  | line :: rest =>
    match percent_search line with
    | some m => m
    | none => find_percentage rest

/-- `find_time(lines, start_idx)` (fordpass.py lines 76-84): first time match
at or after the index, with `.` normalized to `:`. -/
def find_time : List Str → Str
  | [] => []
  | line :: rest =>
    match time_search_raw none line with
    | some m => normalizeTime m
    | none => find_time rest

/-- `SECTION_BREAKS` (fordpass.py lines 19-26). -/
def SECTION_BREAKS : List Str :=
  ["summary".toList, "charge details".toList, "charge".toList,
   "time charging".toList, "energy added".toList, "additional details".toList]

/-- `lower_is_section_break(lowered)` (fordpass.py lines 30-34). -/
def lower_is_section_break (lowered : Str) : Bool :=
  SECTION_BREAKS.any fun label => lowered == label || isPre (label ++ [' ']) lowered

/-- Follower collection of `extract_section`: non-blank stripped lines up to
(excluding) the next section break. -/
def sectionCollect : List Str → List Str
  | [] => []
  | follower :: rest =>
    let fc := pyStrip follower
    if fc.isEmpty then sectionCollect rest
    else if lower_is_section_break (pyLower fc) then []
    else fc :: sectionCollect rest

/-- Main loop of `extract_section` (fordpass.py lines 87-110). -/
def es_loop (label target : Str) : List Str → List Str
  | [] => []
  | line :: rest =>
    let clean := pyStrip line
    if clean.isEmpty then es_loop label target rest
    else
      let lowered := pyLower clean
      if lowered == target || isPre (target ++ [' ']) lowered then
        (if isPre (target ++ [' ']) lowered then
          let inl := pyStrip (lstripColons (pyStrip (clean.drop label.length)))
          if inl.isEmpty then [] else [inl]
        else []) ++ sectionCollect rest
      else es_loop label target rest

/-- `extract_section(lines, label)`. -/
def extract_section (lines : List Str) (label : Str) : List Str :=
  es_loop label (pyLower label) lines

/-- `extract_brand(charger_name)` (fordpass.py lines 208-216): first token of
the name under the splitter `[\s\-]+`. -/
def brandSepChar (c : Char) : Bool := pySpaceChar c || c == '-'

def extract_brand (charger_name : Str) : Str :=
  if charger_name.isEmpty then []
  else (charger_name.dropWhile brandSepChar).takeWhile (fun c => !brandSepChar c)

/-- `parse_duration_minutes(duration_text)` (fordpass.py lines 219-232). -/
def parse_duration_minutes (duration_text : Str) : Str :=
  if duration_text.isEmpty then []
  else
    let hours := match hr_search duration_text with | some ds => digitsToNat ds | none => 0
    let minutes := match min_search duration_text with | some ds => digitsToNat ds | none => 0
    let total := hours * 60 + minutes
    if total > 0 then natToStr total else []

/-- The six `start_*`/`end_*` fields accumulated by
`extract_additional_details`. -/
structure AddDetails where
  start_date : Str
  end_date : Str
  start_time : Str
  end_time : Str
  start_pct : Str
  end_pct : Str
deriving DecidableEq, Repr

def emptyAdd : AddDetails := ⟨[], [], [], [], [], []⟩

/-- One non-blank line of the `extract_additional_details` state machine
(fordpass.py lines 165-204): returns the updated
`(current_date, pending_time, result)`.  `line :: rest` is the suffix
`section[idx:]` scanned by `find_time`/`find_percentage`. -/
def adStep (current_date pending_time : Str) (acc : AddDetails) (line : Str)
    (rest : List Str) : Str × Str × AddDetails :=
  match date_search line with
  | some span =>
    let cd := parse_date_to_iso span
    let pt := match time_search_raw none line with
              | some t => normalizeTime t
              | none => []
    (cd, pt, acc)
  | none =>
    match time_search_raw none line with
    | some t =>
      if pyStrip t == pyStrip line then (current_date, normalizeTime t, acc)
      else adBody current_date pending_time acc line rest
    | none => adBody current_date pending_time acc line rest
where
  adBody (current_date pending_time : Str) (acc : AddDetails) (line : Str)
      (rest : List Str) : Str × Str × AddDetails :=
    let lowered := pyLower line
    if isPre "start".toList lowered then
      let a1 := if acc.start_date.isEmpty then { acc with start_date := current_date } else acc
      let a2 := if a1.start_time.isEmpty then
          { a1 with start_time :=
              if !pending_time.isEmpty then pending_time else find_time (line :: rest) }
        else a1
      let a3 := if a2.start_pct.isEmpty then
          { a2 with start_pct := find_percentage (line :: rest) } else a2
      (current_date, [], a3)
    else if isPre "end".toList lowered then
      let a1 := if acc.end_date.isEmpty then { acc with end_date := current_date } else acc
      let a2 := if a1.end_time.isEmpty then
          { a1 with end_time :=
              if !pending_time.isEmpty then pending_time else find_time (line :: rest) }
        else a1
      let a3 := if a2.end_pct.isEmpty then
          { a2 with end_pct := find_percentage (line :: rest) } else a2
      (current_date, [], a3)
    else (current_date, pending_time, acc)

/-- The `for idx, line in enumerate(section)` loop of
`extract_additional_details`. -/
def adLoop (current_date pending_time : Str) (acc : AddDetails) : List Str → AddDetails
  | [] => acc
  | line :: rest =>
    if line.isEmpty then adLoop current_date pending_time acc rest
    else
      let s := adStep current_date pending_time acc line rest
      adLoop s.1 s.2.1 s.2.2 rest

/-- `extract_additional_details(lines)` (fordpass.py lines 139-205). -/
def extract_additional_details (lines : List Str) : AddDetails :=
  match lines.findIdx? (fun line => containsSub "additional details".toList (pyLower line)) with
  | none => emptyAdd
  | some idx => adLoop [] [] emptyAdd ((lines.drop (idx + 1)).map pyStrip)

/-!
## Consistency repair and Record Assembler
(fordpass.py `extract_record_from_text`, lines 235-359)
-/

/-- Digit groups separated by single underscores — the body Python `int()`
accepts after sign and whitespace handling. -/
def pyIntGo (acc : Nat) : Str → Option Nat
  | [] => some acc
  | '_' :: d :: rest =>
    if d.isDigit then pyIntGo (acc * 10 + digitVal d) rest else none
  | d :: rest =>
    if d.isDigit then pyIntGo (acc * 10 + digitVal d) rest else none

def pyIntCore : Str → Option Nat
  | [] => none
  | c :: rest => if c.isDigit then pyIntGo (digitVal c) rest else none

/-- Python `int(s)` on a string: optional surrounding whitespace, optional
sign, digits (with optional single underscores between them); `none` models
the `ValueError` raised otherwise. -/
def pyInt (s : Str) : Option Int :=
  match pyStrip s with
  | '+' :: rest => (pyIntCore rest).map Int.ofNat
  | '-' :: rest => (pyIntCore rest).map (fun n => -(n : Int))
  | t => (pyIntCore t).map Int.ofNat

/-- Python `str()` of an `int`. -/
def intToStr (n : Int) : Str :=
  if n < 0 then '-' :: natToStr n.natAbs else natToStr n.toNat

/-- The fixed correction-offset list tried by the percentage repair
(fordpass.py line 336), in source order. -/
def corrections : List Int := [60, 70, 80, -60, -70, -80, 30, 40, 50, -30, -40, -50]

/-- The OCR-percentage consistency repair (fordpass.py lines 326-342): given
the extracted `start_pct`, `end_pct`, `charge_pct` strings, return the
(possibly corrected) end percentage string. -/
def repair_end_pct (start_pct end_pct charge_pct : Str) : Str :=
  if !start_pct.isEmpty && !end_pct.isEmpty && !charge_pct.isEmpty then
    match pyInt start_pct, pyInt end_pct, pyInt charge_pct with
    | some start_val, some end_val, some charge_val =>
      let expected_end := start_val + charge_val
      if 10 ≤ (expected_end - end_val).natAbs then
        match corrections.find? (fun c =>
            end_val + c == expected_end &&
            decide (0 ≤ end_val + c) && decide (end_val + c ≤ 100)) with
        | some c => intToStr (end_val + c)
        | none => end_pct
      else end_pct
    | _, _, _ => end_pct  -- a ValueError in any int() skips the repair
  else end_pct

/-- The collection loop of the assembler's inner `extract_summary_info`:
skip blanks; at a section break, skip it when it is exactly `summary` or
`charge details`, stop otherwise; else collect the stripped line. -/
def summaryCollect : List Str → List Str
  | [] => []
  | cand :: rest =>
    let clean := pyStrip cand
    if clean.isEmpty then summaryCollect rest
    else
      let lowered := pyLower clean
      if lower_is_section_break lowered then
        if lowered == "summary".toList || lowered == "charge details".toList then
          summaryCollect rest
        else []
      else clean :: summaryCollect rest

/-- `extract_summary_info(start_idx)` (fordpass.py lines 240-268), applied to
the suffix `lines[start_idx:]`: last collected line is the location, the
earlier ones joined with spaces are the name. -/
def extract_summary_info (ls : List Str) : Str × Str :=
  let summary_lines := summaryCollect ls
  if summary_lines.isEmpty then ([], [])
  else if 2 ≤ summary_lines.length then
    (pyStrip (List.intercalate [' '] summary_lines.dropLast),
     pyStrip (summary_lines.getLastD []))
  else (pyStrip (summary_lines.headD []), [])

/-- The fallback scan for charge percentage and miles over
`lines[:scan_limit]` (fordpass.py lines 300-312). -/
def chargeFallback (pct miles : Str) : List Str → Str × Str
  | [] => (pct, miles)
  | line :: rest =>
    let pct2 := if pct.isEmpty then
        (match percent_search line with | some m => m | none => []) else pct
    let miles2 := if miles.isEmpty then
        (match miles_search line with | some m => m | none => []) else miles
    if !pct2.isEmpty && !miles2.isEmpty then (pct2, miles2)
    else chargeFallback pct2 miles2 rest

/-- All fields of `extract_record_from_text` as computed *before* the
consistency repair (fordpass.py lines 235-324): `end_percentage` here is the
value as extracted. -/
structure RawRecord where
  date : Str
  charger_name : Str
  charger_location : Str
  duration_minutes : Str
  kwh_added : Str
  charge_percentage : Str
  charge_miles : Str
  start_time : Str
  end_time : Str
  start_percentage : Str
  end_percentage : Str
  cost : Str
  charger_brand : Str
deriving DecidableEq, Repr

def extract_raw (text : Str) : RawRecord :=
  let lines := (splitlines text).map pyStrip
  let additional_idx :=
    lines.findIdx? (fun line => containsSub "additional details".toList (pyLower line))
  let summary_idx := lines.findIdx? (fun l => containsSub "summary".toList (pyLower l))
  let p1 := match summary_idx with
            | some i => extract_summary_info (lines.drop (i + 1))
            | none => ([], [])
  let p2 := if p1.1.isEmpty then
              match lines.findIdx? (fun l => containsSub "charge details".toList (pyLower l)) with
              | some i => extract_summary_info (lines.drop (i + 1))
              | none => p1
            else p1
  let charger_name := p2.1
  let charger_location := p2.2
  let duration := extract_label_value lines "time charging".toList
  let duration_minutes := parse_duration_minutes duration
  let kwh_text := extract_label_value lines "energy added".toList
  let kwh_added := match kwh_search kwh_text with | some m => m | none => []
  let charge_text0 := extract_label_value lines "charge".toList
  let charge_text := if charge_text0.isEmpty then
                       match extract_section lines "charge".toList with
                       | [] => charge_text0
                       | first :: _ => first
                     else charge_text0
  let charge_pct0 := if !charge_text.isEmpty then
      (match percent_search charge_text with | some m => m | none => []) else []
  let charge_miles0 := if !charge_text.isEmpty then
      (match miles_search charge_text with | some m => m | none => []) else []
  let scan_limit := match additional_idx with | some i => i | none => lines.length
  let pm := if charge_pct0.isEmpty || charge_miles0.isEmpty then
              chargeFallback charge_pct0 charge_miles0 (lines.take scan_limit)
            else (charge_pct0, charge_miles0)
  let cost_value := match cost_search text with | some m => m | none => []
  let additional := extract_additional_details lines
  let date_value := if !additional.start_date.isEmpty then additional.start_date
                    else if !additional.end_date.isEmpty then additional.end_date
                    else []
  { date := date_value
    charger_name := charger_name
    charger_location := charger_location
    duration_minutes := duration_minutes
    kwh_added := kwh_added
    charge_percentage := pm.1
    charge_miles := pm.2
    start_time := additional.start_time
    end_time := additional.end_time
    start_percentage := additional.start_pct
    end_percentage := additional.end_pct
    cost := cost_value
    charger_brand := extract_brand charger_name }

/-- The fixed key schema of the returned record, in source order
(fordpass.py lines 344-358). -/
def recordKeys : List Str :=
  ["date".toList, "charger_name".toList, "charger_location".toList,
   "duration_minutes".toList, "kwh_added".toList, "charge_percentage".toList,
   "charge_miles".toList, "start_time".toList, "end_time".toList,
   "start_percentage".toList, "end_percentage".toList, "cost".toList,
   "charger_brand".toList]

/-- `extract_record_from_text(text)` (fordpass.py lines 235-359): all fields
as extracted, except that `end_percentage` goes through the consistency
repair.  The Python dict is modelled as an association list in the source's
key order. -/
def extract_record_from_text (text : Str) : List (Str × Str) :=
  let r := extract_raw text
  let end_pct := repair_end_pct r.start_percentage r.end_percentage r.charge_percentage
  [("date".toList, r.date), ("charger_name".toList, r.charger_name),
   ("charger_location".toList, r.charger_location),
   ("duration_minutes".toList, r.duration_minutes),
   ("kwh_added".toList, r.kwh_added),
   ("charge_percentage".toList, r.charge_percentage),
   ("charge_miles".toList, r.charge_miles),
   ("start_time".toList, r.start_time), ("end_time".toList, r.end_time),
   ("start_percentage".toList, r.start_percentage),
   ("end_percentage".toList, end_pct),
   ("cost".toList, r.cost), ("charger_brand".toList, r.charger_brand)]

/-!
## Ledger writer — `_parse_row_datetime`, `row_sort_key`, `write_csv`
(charge_parser.py lines 463-525)
-/

/-- A persisted ledger row: the fixed `CSV_COLUMNS` schema of
charge_parser.py lines 33-48. -/
structure CsvRow where
  date : Str
  charger_name : Str
  charger_location : Str
  duration : Str
  kwh_added : Str
  charger_kw_rating : Str
  charge_percentage : Str
  charge_miles : Str
  start_time : Str
  end_time : Str
  start_percentage : Str
  end_percentage : Str
  cost : Str
  charger_brand : Str
deriving DecidableEq, Repr

/-- A CPython `_strptime` numeric field of one or two digits: a two-digit
match must satisfy `ok2`, a one-digit match `ok1` (this encodes the grouped
alternations such as `(3[01]|[12]\d|0[1-9]|[1-9])`).  In every format used
here the field is followed by a non-digit literal or end of string, so when
two digits are available the one-digit backtracking candidate always fails
and is not generated. -/
def numTok2 (ok2 ok1 : Nat → Bool) (s : Str) : Option (Nat × Str) :=
  match s with
  | a :: b :: rest =>
    if a.isDigit && b.isDigit then
      let v := digitVal a * 10 + digitVal b
      if ok2 v then some (v, rest) else none
    else if a.isDigit && ok1 (digitVal a) then some (digitVal a, b :: rest)
    else none
  | [a] => if a.isDigit && ok1 (digitVal a) then some (digitVal a, []) else none
  | [] => none

/-- `%m`: `(1[0-2]|0[1-9]|[1-9])`. -/
def monthTok (s : Str) : Option (Nat × Str) :=
  numTok2 (fun v => 1 ≤ v && v ≤ 12) (fun v => 1 ≤ v) s

/-- `%H`: `(2[0-3]|[0-1]\d|\d)`. -/
def hourTok24 (s : Str) : Option (Nat × Str) := numTok2 (· ≤ 23) (fun _ => true) s

/-- `%M`: `([0-5]\d|\d)`. -/
def minuteTok (s : Str) : Option (Nat × Str) := numTok2 (· ≤ 59) (fun _ => true) s

/-- `%S`: `(6[0-1]|[0-5]\d|\d)` (leap seconds are then rejected by the
`datetime` constructor, see `validDT`). -/
def secondTok (s : Str) : Option (Nat × Str) := numTok2 (· ≤ 61) (fun _ => true) s

/-- `%I`: `(1[0-2]|0[1-9]|[1-9])`. -/
def hourTok12 (s : Str) : Option (Nat × Str) :=
  numTok2 (fun v => 1 ≤ v && v ≤ 12) (fun v => 1 ≤ v) s

/-- `%p`: `AM` or `PM`, case-insensitive; `true` means PM. -/
def ampmTok : Str → Option (Bool × Str)
  | a :: b :: rest =>
    if a.toLower == 'a' && b.toLower == 'm' then some (false, rest)
    else if a.toLower == 'p' && b.toLower == 'm' then some (true, rest)
    else none
  | _ => none

/-- CPython's 12-to-24-hour conversion for `%I` plus `%p`. -/
def hour12to24 (pm : Bool) (h : Nat) : Nat :=
  if pm then (if h != 12 then h + 12 else h)
  else (if h == 12 then 0 else h)

/-- The `%Y-%m-%d` part shared by all five formats of `_parse_row_datetime`. -/
def ymdTok (s : Str) : Option (Nat × Nat × Nat × Str) :=
  match yearTok s with
  | none => none
  | some (y, r1) =>
    match r1 with
    | '-' :: r2 =>
      match monthTok r2 with
      | none => none
      | some (m, r3) =>
        match r3 with
        | '-' :: r4 =>
          match dayTok r4 with
          | none => none
          | some (d, r5) => some (y, m, d, r5)
        | _ => none
    | _ => none

/-- The moment parsed by `_parse_row_datetime` (microseconds are always 0 in
a `strptime` result without `%f`). -/
structure DT where
  y : Nat
  mo : Nat
  d : Nat
  h : Nat
  mi : Nat
  s : Nat
deriving DecidableEq, Repr

/-- The validation `datetime(...)` performs beyond the format regexes:
year ≥ 1 (`%Y` already caps it at 9999), day within the month, second ≤ 59
(rejecting the regex-permitted leap seconds). -/
def validDT (y mo d _h _mi sec : Nat) : Bool :=
  1 ≤ y && 1 ≤ d && d ≤ daysInMonth y mo && sec ≤ 59

/-- `datetime.strptime(s, "%Y-%m-%d %H:%M")`. -/
def strptime_ymd_HM (s : Str) : Option DT :=
  match ymdTok s with
  | some (y, mo, d, r) =>
    match ws1 r with
    | some r1 =>
      match hourTok24 r1 with
      | some (h, ':' :: r2) =>
        match minuteTok r2 with
        | some (mi, []) => if validDT y mo d h mi 0 then some ⟨y, mo, d, h, mi, 0⟩ else none
        | _ => none
      | _ => none
    | none => none
  | none => none

/-- `datetime.strptime(s, "%Y-%m-%d %H:%M:%S")`. -/
def strptime_ymd_HMS (s : Str) : Option DT :=
  match ymdTok s with
  | some (y, mo, d, r) =>
    match ws1 r with
    | some r1 =>
      match hourTok24 r1 with
      | some (h, ':' :: r2) =>
        match minuteTok r2 with
        | some (mi, ':' :: r3) =>
          match secondTok r3 with
          | some (sec, []) =>
            if validDT y mo d h mi sec then some ⟨y, mo, d, h, mi, sec⟩ else none
          | _ => none
        | _ => none
      | _ => none
    | none => none
  | none => none

/-- `datetime.strptime(s, "%Y-%m-%d %I:%M %p")`. -/
def strptime_ymd_IMp (s : Str) : Option DT :=
  match ymdTok s with
  | some (y, mo, d, r) =>
    match ws1 r with
    | some r1 =>
      match hourTok12 r1 with
      | some (h12, ':' :: r2) =>
        match minuteTok r2 with
        | some (mi, r3) =>
          match ws1 r3 with
          | some r4 =>
            match ampmTok r4 with
            | some (pm, []) =>
              let h := hour12to24 pm h12
              if validDT y mo d h mi 0 then some ⟨y, mo, d, h, mi, 0⟩ else none
            | _ => none
          | none => none
        | _ => none
      | _ => none
    | none => none
  | none => none

/-- `datetime.strptime(s, "%Y-%m-%d %I:%M%p")`. -/
def strptime_ymd_IMp2 (s : Str) : Option DT :=
  match ymdTok s with
  | some (y, mo, d, r) =>
    match ws1 r with
    | some r1 =>
      match hourTok12 r1 with
      | some (h12, ':' :: r2) =>
        match minuteTok r2 with
        | some (mi, r3) =>
          match ampmTok r3 with
          | some (pm, []) =>
            let h := hour12to24 pm h12
            if validDT y mo d h mi 0 then some ⟨y, mo, d, h, mi, 0⟩ else none
          | _ => none
        | _ => none
      | _ => none
    | none => none
  | none => none

/-- `datetime.strptime(s, "%Y-%m-%d")` (the date-only fallback). -/
def strptime_ymd (s : Str) : Option DT :=
  match ymdTok s with
  | some (y, mo, d, []) =>
    if validDT y mo d 0 0 0 then some ⟨y, mo, d, 0, 0, 0⟩ else none
  | _ => none

/-- `_parse_row_datetime(date_str, time_str)` (charge_parser.py lines
463-476): the four date+time formats in order when `time_str` is non-empty,
then the date-only fallback. -/
def parse_row_datetime (date_str time_str : Str) : Option DT :=
  if date_str.isEmpty then none
  else
    let combined := date_str ++ ' ' :: time_str
    let viaTime :=
      if !time_str.isEmpty then
        match strptime_ymd_HM combined with
        | some dt => some dt
        | none =>
          match strptime_ymd_HMS combined with
          | some dt => some dt
          | none =>
            match strptime_ymd_IMp combined with
            | some dt => some dt
            | none => strptime_ymd_IMp2 combined
      else none
    match viaTime with
    | some dt => some dt
    | none => strptime_ymd date_str

/-- Mixed-radix encoding of a datetime (with explicit microseconds).  The
radices strictly bound the component ranges (month ≤ 12 < 13, day ≤ 31 < 32,
hour ≤ 23, minute/second ≤ 59, microsecond ≤ 999999), so the encoding is
order-isomorphic to Python's field-lexicographic `datetime` comparison. -/
def dtKey (dt : DT) (micro : Nat) : Nat :=
  (((((dt.y * 13 + dt.mo) * 32 + dt.d) * 24 + dt.h) * 60 + dt.mi) * 60 + dt.s)
    * 1000000 + micro

/-- `datetime.max = 9999-12-31 23:59:59.999999`, the key given to rows whose
date is missing or unparseable ("push unknown dates to the end"). -/
def dtMaxKey : Nat := dtKey ⟨9999, 12, 31, 23, 59, 59⟩ 999999

/-- The sort key domain: datetime first, then location, then name,
lexicographically (Python compares key tuples lexicographically). -/
abbrev SortKey := Lex (Nat × Lex (Str × Str))

/-- `row_sort_key(row)` (charge_parser.py lines 479-487). -/
def row_sort_key (row : CsvRow) : SortKey :=
  let dtv := match parse_row_datetime (pyStrip row.date) (pyStrip row.start_time) with
             | some dt => dtKey dt 0
             | none => dtMaxKey
  toLex (dtv, toLex (pyLower (pyStrip row.charger_location),
                     pyLower (pyStrip row.charger_name)))

/-- The Boolean comparison `row_sort_key a <= row_sort_key b` used to model
Python's ascending stable sort. -/
def rowLE (a b : CsvRow) : Bool := decide (row_sort_key a ≤ row_sort_key b)

/-- `dedup_key(row)` (charge_parser.py lines 496-501). -/
def dedup_key (row : CsvRow) : Str × Str × Str :=
  (row.date, row.charger_location, row.start_time)

/-- The second loop of `write_csv`: append each new row whose dedup key has
not been seen, extending the seen set. -/
def merge_new (seen : List (Str × Str × Str)) : List CsvRow → List CsvRow
  | [] => []
  | r :: rest =>
    if seen.contains (dedup_key r) then merge_new seen rest
    else r :: merge_new (dedup_key r :: seen) rest

/-- The sort relation `row_sort_key a <= row_sort_key b` as a `Prop`. -/
def rowRel (a b : CsvRow) : Prop := rowLE a b = true

instance : DecidableRel rowRel :=
  fun a b => inferInstanceAs (Decidable (rowLE a b = true))

instance : IsTotal CsvRow rowRel :=
  ⟨fun a b => by
    simp only [rowRel, rowLE, Bool.or_eq_true, decide_eq_true_eq]
    exact le_total _ _⟩

instance : IsTrans CsvRow rowRel :=
  ⟨fun a b c h1 h2 => by
    simp only [rowRel, rowLE, decide_eq_true_eq] at *
    exact le_trans h1 h2⟩

/-- The pure content of `write_csv(output_path, rows, append=True)`
(charge_parser.py lines 490-525): rows already in the file, then the new rows
deduplicated against them and each other, stably sorted ascending by
`row_sort_key`.  Python's `list.sort` is a stable sort, and a stable sort
with respect to a total transitive relation has a unique result, so it is
modelled by the structurally recursive stable `List.insertionSort` (the file
I/O and the returned insertion count are not modelled). -/
def write_csv_rows (existing rows : List CsvRow) : List CsvRow :=
  List.insertionSort rowRel (existing ++ merge_new (existing.map dedup_key) rows)

/-!
## Plugin selector — `pick_plugin_from_scores`
(plugins/base.py lines 72-85, identical copy in charge_parser.py lines 421-434)

Detection scores are Python floats that the selector only compares; they are
modelled as rationals (the produced scores are multiples of 0.25, on which
float comparison is exact).
-/

def pick_plugin_from_scores {α : Type} : List (ℚ × α) → Option α
  | [] => none
  | (top_score, top_plugin) :: rest =>
    if top_score ≤ 0 then none
    else
      match rest with
      | [] => some top_plugin
      | (next_score, _) :: _ =>
        if next_score < top_score then some top_plugin
        else
          if (((top_score, top_plugin) :: rest).filter fun p => p.1 == top_score).length == 1
          then some top_plugin else none

/-!
## Auxiliary definitions for the theorems below
-/

/-- The record as it stands before the consistency repair: the same
association list as `extract_record_from_text` but with `end_percentage` as
extracted. -/
def extract_record_pre (text : Str) : List (Str × Str) :=
  let r := extract_raw text
  [("date".toList, r.date), ("charger_name".toList, r.charger_name),
   ("charger_location".toList, r.charger_location),
   ("duration_minutes".toList, r.duration_minutes),
   ("kwh_added".toList, r.kwh_added),
   ("charge_percentage".toList, r.charge_percentage),
   ("charge_miles".toList, r.charge_miles),
   ("start_time".toList, r.start_time), ("end_time".toList, r.end_time),
   ("start_percentage".toList, r.start_percentage),
   ("end_percentage".toList, r.end_percentage),
   ("cost".toList, r.cost), ("charger_brand".toList, r.charger_brand)]

/-- Concrete ledger row dated 2025-12-16 (fields as in the repository's own
CSV test). -/
def rowDec16 : CsvRow :=
  { date := "2025-12-16".toList, charger_name := "Shell Recharge".toList,
    charger_location := "Location A".toList, duration := "2 hrs".toList,
    kwh_added := "10".toList, charger_kw_rating := [],
    charge_percentage := [], charge_miles := [],
    start_time := "12:00".toList, end_time := "14:00".toList,
    start_percentage := "20".toList, end_percentage := "80".toList,
    cost := [], charger_brand := "Shell".toList }

/-- Concrete ledger row dated 2026-01-01. -/
def rowJan01 : CsvRow :=
  { rowDec16 with date := "2026-01-01".toList, start_time := "09:00".toList,
                  charger_location := "Location B".toList }

/-- Concrete ledger row with an empty date. -/
def rowNoDate : CsvRow :=
  { rowDec16 with date := [], start_time := [],
                  charger_location := "Location C".toList }

/-- All six input orders of the three concrete rows. -/
def threeRowPerms : List (List CsvRow) :=
  [[rowDec16, rowJan01, rowNoDate], [rowDec16, rowNoDate, rowJan01],
   [rowJan01, rowDec16, rowNoDate], [rowJan01, rowNoDate, rowDec16],
   [rowNoDate, rowDec16, rowJan01], [rowNoDate, rowJan01, rowDec16]]

/-- The scenario text of claim C5: an Additional Details section containing
the OCR-artifact date line "December Ist, 2025" followed by
"Start 08:05 30%". -/
def istScenario : Str :=
  "Additional details\nDecember Ist, 2025\nStart 08:05 30%".toList

/-- The scenario input of claim C4: a text whose extracted start percentage
is 71, end percentage 10 and charge-delta percentage 29. -/
def repairScenario : Str :=
  "Charge\n29%\nAdditional details\nDecember 16, 2025\nStart 12:32 71%\nEnd 15:23 10%\n".toList

/-!
## The charge_parser.py copy of the Record Assembler —
`_extract_fordpass_record_from_text` (charge_parser.py lines 242-318)

This older copy differs from the fordpass.py assembler: its `TIME_PATTERN`
accepts only `:` (charge_parser.py line 25) and times are not normalized, the
reconciler has no standalone-time rule, the name/location split takes the
first collected line as the name and the second as the location, the duration
is kept as raw text, a `kW` power rating is extracted, and there is no
percentage repair and no charge fallback scan.
-/

/-- `:\d{2}\b` — tail of charge_parser.py's `TIME_PATTERN` after the hour. -/
def timeTailCp : Str → Option Str
  | c :: d1 :: d2 :: rest =>
    if c == ':' && d1.isDigit && d2.isDigit && bdryAt rest then some [c, d1, d2]
    else none
  | _ => none

/-- Backtracking over the `\d{1,2}` hour, longest first. -/
def timeTryHourCp (run rest : Str) : Nat → Option Str
  | 0 => none
  | j + 1 =>
    match timeTailCp (run.drop (j + 1) ++ rest) with
    | some tl => some (run.take (j + 1) ++ tl)
    | none => timeTryHourCp run rest j

/-- charge_parser.py `TIME_PATTERN = \b\d{1,2}:\d{2}\b` anchored at the
current position (leading `\b` checked by the caller). -/
def timeMatchAtCp (s : Str) : Option Str :=
  let (run, rest) := takeDigits s
  timeTryHourCp run rest (min 2 run.length)

/-- charge_parser.py `TIME_PATTERN.search`. -/
def time_search_cp (prev : Option Char) : Str → Option Str
  | [] => none
  | c :: rest =>
    let bOK := match prev with | none => true | some p => !isWordChar p
    match (if bOK then timeMatchAtCp (c :: rest) else none) with
    | some m => some m
    | none => time_search_cp (some c) rest

/-- `find_time(lines, start_idx)` (charge_parser.py lines 139-145): no
normalization, the raw match is returned. -/
def find_time_cp : List Str → Str
  | [] => []
  | line :: rest =>
    match time_search_cp none line with
    | some m => m
    | none => find_time_cp rest

/-- One non-blank line of charge_parser.py's `extract_additional_details`
state machine (lines 200-227): unlike the fordpass.py version there is no
standalone-time rule and no `.`-to-`:` normalization. -/
def adStep_cp (current_date pending_time : Str) (acc : AddDetails) (line : Str)
    (rest : List Str) : Str × Str × AddDetails :=
  match date_search line with
  | some span =>
    let cd := parse_date_to_iso span
    let pt := match time_search_cp none line with
              | some t => t
              | none => []
    (cd, pt, acc)
  | none => adBody current_date pending_time acc line rest
where
  adBody (current_date pending_time : Str) (acc : AddDetails) (line : Str)
      (rest : List Str) : Str × Str × AddDetails :=
    let lowered := pyLower line
    if isPre "start".toList lowered then
      let a1 := if acc.start_date.isEmpty then { acc with start_date := current_date } else acc
      let a2 := if a1.start_time.isEmpty then
          { a1 with start_time :=
              if !pending_time.isEmpty then pending_time else find_time_cp (line :: rest) }
        else a1
      let a3 := if a2.start_pct.isEmpty then
          { a2 with start_pct := find_percentage (line :: rest) } else a2
      (current_date, [], a3)
    else if isPre "end".toList lowered then
      let a1 := if acc.end_date.isEmpty then { acc with end_date := current_date } else acc
      let a2 := if a1.end_time.isEmpty then
          { a1 with end_time :=
              if !pending_time.isEmpty then pending_time else find_time_cp (line :: rest) }
        else a1
      let a3 := if a2.end_pct.isEmpty then
          { a2 with end_pct := find_percentage (line :: rest) } else a2
      (current_date, [], a3)
    else (current_date, pending_time, acc)

def adLoop_cp (current_date pending_time : Str) (acc : AddDetails) :
    List Str → AddDetails
  | [] => acc
  | line :: rest =>
    if line.isEmpty then adLoop_cp current_date pending_time acc rest
    else
      let s := adStep_cp current_date pending_time acc line rest
      adLoop_cp s.1 s.2.1 s.2.2 rest

/-- `extract_additional_details(lines)` (charge_parser.py lines 174-228). -/
def extract_additional_details_cp (lines : List Str) : AddDetails :=
  match lines.findIdx? (fun line => containsSub "additional details".toList (pyLower line)) with
  | none => emptyAdd
  | some idx => adLoop_cp [] [] emptyAdd ((lines.drop (idx + 1)).map pyStrip)

/-- The location scan of charge_parser.py's inner `extract_summary_info`
(lines 246-263), once a name has been taken: the next collected line. -/
def summaryLoc_cp : List Str → Str
  | [] => []
  | cand :: rest =>
    let clean := pyStrip cand
    if clean.isEmpty then summaryLoc_cp rest
    else
      let lowered := pyLower clean
      if lower_is_section_break lowered then
        if lowered == "summary".toList || lowered == "charge details".toList then
          summaryLoc_cp rest
        else []
      else clean

/-- charge_parser.py's inner `extract_summary_info`: first collected line is
the name, second the location. -/
def extract_summary_info_cp : List Str → Str × Str
  | [] => ([], [])
  | cand :: rest =>
    let clean := pyStrip cand
    if clean.isEmpty then extract_summary_info_cp rest
    else
      let lowered := pyLower clean
      if lower_is_section_break lowered then
        if lowered == "summary".toList || lowered == "charge details".toList then
          extract_summary_info_cp rest
        else ([], [])
      else (clean, summaryLoc_cp rest)

/-- `\s*kW\b(?!h)` (ci) — tail of `KW_PATTERN`; the `\b` after `W` already
rules out a following letter, which makes the `(?!h)` lookahead redundant. -/
def kwTail (s : Str) : Bool :=
  match s.dropWhile pySpaceChar with
  | k :: w :: rest => k.toLower == 'k' && w.toLower == 'w' && bdryAt rest
  | _ => false

/-- `KW_PATTERN = \b(\d+(?:\.\d+)?)\s*kW\b(?!h)` (ci) anchored at the
current position (leading `\b` checked by the caller); returns `group(1)`. -/
def kwMatchAt (s : Str) : Option Str :=
  match takeDigits s with
  | ([], _) => none
  | (run, rest) =>
    match rest with
    | '.' :: rest2 =>
      match takeDigits rest2 with
      | ([], _) => if kwTail rest then some run else none
      | (frac, rest3) =>
        if kwTail rest3 then some (run ++ '.' :: frac)
        else if kwTail rest then some run
        else none
    | _ => if kwTail rest then some run else none

/-- `KW_PATTERN.search`, returning `group(1)`. -/
def kw_search (prev : Option Char) : Str → Option Str
  | [] => none
  | c :: rest =>
    let bOK := match prev with | none => true | some p => !isWordChar p
    match (if bOK then kwMatchAt (c :: rest) else none) with
    | some m => some m
    | none => kw_search (some c) rest

/-- The fixed key schema of charge_parser.py's record (its `CSV_COLUMNS`,
lines 33-48, equal to the dict literal of lines 302-317). -/
def csvRecordKeys : List Str :=
  ["date".toList, "charger_name".toList, "charger_location".toList,
   "duration".toList, "kwh_added".toList, "charger_kw_rating".toList,
   "charge_percentage".toList, "charge_miles".toList, "start_time".toList,
   "end_time".toList, "start_percentage".toList, "end_percentage".toList,
   "cost".toList, "charger_brand".toList]

/-- `_extract_fordpass_record_from_text(text)` (charge_parser.py lines
242-318). -/
def extract_fordpass_record_from_text (text : Str) : List (Str × Str) :=
  let lines := (splitlines text).map pyStrip
  let summary_idx := lines.findIdx? (fun l => containsSub "summary".toList (pyLower l))
  let p1 := match summary_idx with
            | some i => extract_summary_info_cp (lines.drop (i + 1))
            | none => ([], [])
  let p2 := if p1.1.isEmpty then
              match lines.findIdx? (fun l => containsSub "charge details".toList (pyLower l)) with
              | some i => extract_summary_info_cp (lines.drop (i + 1))
              | none => p1
            else p1
  let charger_name := p2.1
  let charger_location := p2.2
  let duration := extract_label_value lines "time charging".toList
  let kwh_text := extract_label_value lines "energy added".toList
  let kwh_added := match kwh_search kwh_text with | some m => m | none => []
  let charge_text := extract_label_value lines "charge".toList
  let charge_pct := if !charge_text.isEmpty then
      (match percent_search charge_text with | some m => m | none => []) else []
  let charge_miles := if !charge_text.isEmpty then
      (match miles_search charge_text with | some m => m | none => []) else []
  let charger_kw := match kw_search none text with | some m => m | none => []
  let cost_value := match cost_search text with | some m => m | none => []
  let additional := extract_additional_details_cp lines
  let date_value := if !additional.start_date.isEmpty then additional.start_date
                    else if !additional.end_date.isEmpty then additional.end_date
                    else []
  [("date".toList, date_value), ("charger_name".toList, charger_name),
   ("charger_location".toList, charger_location),
   ("duration".toList, duration), ("kwh_added".toList, kwh_added),
   ("charger_kw_rating".toList, charger_kw),
   ("charge_percentage".toList, charge_pct),
   ("charge_miles".toList, charge_miles),
   ("start_time".toList, additional.start_time),
   ("end_time".toList, additional.end_time),
   ("start_percentage".toList, additional.start_pct),
   ("end_percentage".toList, additional.end_pct),
   ("cost".toList, cost_value),
   ("charger_brand".toList, extract_brand charger_name)]

/-!
## Theorems
-/

/-- C1, counterexample.  On `lines = ["label", "label 5"]` with label
`"label"` the first matching line is the direct match `"label"`, whose only
follower is a label echo; the claim ("first match wins and scanning never
restarts") then yields the empty string, but `extract_label_value` continues
scanning, matches the echo inline, and returns `"5"`. -/
theorem C1_label_locator_counterexample :
    extract_label_value ["label".toList, "label 5".toList] "label".toList = "5".toList ∧
    find_label_value_claim ["label".toList, "label 5".toList] "label".toList = [] ∧
    extract_label_value ["label".toList, "label 5".toList] "label".toList ≠
      find_label_value_claim ["label".toList, "label 5".toList] "label".toList := by
  refine ⟨by decide, by decide, by decide⟩

/-- C1, amended: for every list of lines and every label,
`extract_label_value` equals the claim's scan amended in one point — after a
direct match whose followers are all blank or label echoes, scanning
continues with the next line instead of stopping (all other wording of the
claim is kept and embodied by `find_label_value_amended`). -/
theorem C1_label_locator :
    ∀ (lines : List Str) (label : Str),
      extract_label_value lines label = find_label_value_amended lines label := by
  intro lines label
  show elv_loop label (pyLower label) lines = amended_loop label (pyLower label) lines
  induction lines with
  | nil => rfl
  | cons line rest ih =>
    rw [elv_loop, amended_loop]
    by_cases hb : (pyStrip line).isEmpty
    · simp only [hb, if_true, ih]
    · simp only [hb, if_false]
      by_cases hd : rstripColons (pyLower (pyStrip line)) == pyLower label
      · simp only [hd, if_true]
        cases label_follower (pyLower label) rest with
        | none => simp [ih]
        | some f => simp
      · simp only [hd, if_false]
        by_cases hi : (inline_value_of (pyStrip line) (pyLower (pyStrip line))
            (pyLower label) label).isEmpty
        · simp_all [ih]
        · simp_all

/-- C2: on a descending-sorted score list, plugin selection returns `none`
when the list is empty, the top score is ≤ 0, or the top score is matched by
another entry; otherwise it returns the unique strictly-top-scoring plugin,
however many lower-scoring entries follow. -/
theorem C2_plugin_selection {α : Type} (scores : List (ℚ × α))
    (hs : scores.Pairwise (fun a b => b.1 ≤ a.1)) :
    pick_plugin_from_scores scores =
      match scores with
      | [] => none
      | top :: rest => if 0 < top.1 ∧ ∀ q ∈ rest, q.1 < top.1 then some top.2 else none := by
  match scores, hs with
  | [], _ => rfl
  | [(ts, tp)], _ =>
    by_cases h0 : ts ≤ 0
    · simp [pick_plugin_from_scores, h0, not_lt.mpr h0]
    · simp [pick_plugin_from_scores, h0, lt_of_not_le h0]
  | (ts, tp) :: (ns, np) :: rest2, hs =>
    have hd := List.pairwise_cons.mp hs
    have hns : ns ≤ ts := hd.1 (ns, np) (by simp)
    have hrest := List.pairwise_cons.mp hd.2
    by_cases h0 : ts ≤ 0
    · simp [pick_plugin_from_scores, h0, not_lt.mpr h0]
    · by_cases hlt : ns < ts
      · have hall : ∀ q ∈ (ns, np) :: rest2, q.1 < ts := by
          intro q hq
          rcases List.mem_cons.mp hq with h | h
          · rw [h]; exact hlt
          · exact lt_of_le_of_lt (hrest.1 q h) hlt
        have hall2 : ∀ (a : ℚ) (b : α), (a, b) ∈ rest2 → a < ts :=
          fun a b h => hall (a, b) (List.mem_cons_of_mem _ h)
        simp [pick_plugin_from_scores, h0, hlt, lt_of_not_le h0, hall]
        exact hall2
      · have heq : ns = ts := le_antisymm hns (not_lt.mp hlt)
        have hfil : ((ts, tp) :: (ns, np) :: rest2).filter (fun p => p.1 == ts) =
            (ts, tp) :: (ns, np) :: rest2.filter (fun p => p.1 == ts) := by
          simp [List.filter_cons, heq]
        have hne : ¬ (((((ts, tp) :: (ns, np) :: rest2).filter fun p => p.1 == ts).length
            == 1) = true) := by
          rw [hfil]; simp
        have hnall : ¬ (0 < ts ∧ ∀ q ∈ (ns, np) :: rest2, q.1 < ts) := by
          rintro ⟨-, hall⟩
          exact absurd (hall (ns, np) (by simp)) (by simp [heq])
        show pick_plugin_from_scores ((ts, tp) :: (ns, np) :: rest2) =
          if 0 < ts ∧ ∀ q ∈ (ns, np) :: rest2, q.1 < ts then some tp else none
        simp only [pick_plugin_from_scores, if_neg h0, if_neg hlt, if_neg hne, if_neg hnall]

/-- C2, witness: a strict top scorer is selected; an exact nonzero tie is
reported as undetermined. -/
theorem C2_plugin_selection_witness :
    pick_plugin_from_scores [((2 : ℚ), (0 : Nat)), ((1 : ℚ), 1)] = some 0 ∧
    pick_plugin_from_scores [((1 : ℚ), (0 : Nat)), ((1 : ℚ), 1)] = none :=
  ⟨(C2_plugin_selection _ (by decide)).trans (by decide),
   (C2_plugin_selection _ (by decide)).trans (by decide)⟩

/-- C4, counterexample.  With extracted start 71, end 10 and delta 29 the
expected end is 100, which would need the offset +90 — not in the correction
set — so the repair leaves the end percentage at 10; the claimed repaired
value 100 is not produced, neither by the repair step nor end to end on a
text extracting exactly those three values. -/
theorem C4_repair_counterexample :
    repair_end_pct "71".toList "10".toList "29".toList ≠ "100".toList ∧
    (extract_record_from_text repairScenario).lookup "end_percentage".toList ≠
      some "100".toList := by
  refine ⟨by decide, by decide⟩

/-- C4, amended: with extracted start 71, end 10 and delta 29 (and the
repair's trigger |71 + 29 − 10| ≥ 10 holding), the repair leaves
end_percentage at 10, because the offset that would reconcile the sum, +90,
lies outside the fixed set ±{30,40,50,60,70,80}; on a text extracting those
values the record's end_percentage is "10". -/
theorem C4_repair_result :
    repair_end_pct "71".toList "10".toList "29".toList = "10".toList ∧
    (extract_record_from_text repairScenario).lookup "start_percentage".toList =
      some "71".toList ∧
    (extract_record_from_text repairScenario).lookup "charge_percentage".toList =
      some "29".toList ∧
    (extract_record_from_text repairScenario).lookup "end_percentage".toList =
      some "10".toList := by
  refine ⟨by decide, by decide, by decide, by decide⟩

/-- C5: on an input whose Additional Details section contains the line
"December Ist, 2025" followed by "Start 08:05 30%", the assembled record
carries date "2025-12-01" (the OCR artifact "Ist" is coerced to day 1),
start_time "08:05" and start_percentage "30". -/
theorem C5_ist_scenario :
    (extract_record_from_text istScenario).lookup "date".toList =
      some "2025-12-01".toList ∧
    (extract_record_from_text istScenario).lookup "start_time".toList =
      some "08:05".toList ∧
    (extract_record_from_text istScenario).lookup "start_percentage".toList =
      some "30".toList := by
  refine ⟨by decide, by decide, by decide⟩

/-- C6: duration-to-minutes conversion equals the claim's description — scan
for the independently optional `<N> hr` and `<N> min` (case-insensitive),
return `hours*60+minutes` in decimal, or the empty string when the total is
zero (in particular when both are absent); and "2 hrs 50 min" yields "170". -/
theorem C6_duration_minutes :
    (∀ s : Str, parse_duration_minutes s =
      (let hours := match hr_search s with | some ds => digitsToNat ds | none => 0
       let minutes := match min_search s with | some ds => digitsToNat ds | none => 0
       if hours * 60 + minutes = 0 then [] else natToStr (hours * 60 + minutes))) ∧
    parse_duration_minutes "2 hrs 50 min".toList = "170".toList := by
  constructor
  · intro s
    match s with
    | [] => rfl
    | c :: rest =>
      rw [parse_duration_minutes]
      simp only [List.isEmpty_cons, if_false, Bool.false_eq_true]
      have key : ∀ n : Nat,
          (if n > 0 then natToStr n else []) = (if n = 0 then [] else natToStr n) := by
        intro n
        rcases Nat.eq_zero_or_pos n with h | h
        · simp [h]
        · simp [h, Nat.pos_iff_ne_zero.mp h]
      cases hr_search (c :: rest) <;> cases min_search (c :: rest) <;> exact key _
  · decide

/-- C7: for every input text each Record Assembler — the fordpass.py
`extract_record_from_text` and the charge_parser.py
`_extract_fordpass_record_from_text` — produces a record with exactly its
fixed key schema, in order (all values are strings by type, with the empty
string standing for "not found", and the Lean embedding is total — no
failure path exists); on empty input each produces the record with every
field empty, a valid output. -/
theorem C7_record_totality :
    (∀ text : Str, (extract_record_from_text text).map Prod.fst = recordKeys) ∧
    extract_record_from_text [] = recordKeys.map (fun k => (k, ([] : Str))) ∧
    (∀ text : Str,
      (extract_fordpass_record_from_text text).map Prod.fst = csvRecordKeys) ∧
    extract_fordpass_record_from_text [] = csvRecordKeys.map (fun k => (k, ([] : Str))) := by
  exact ⟨fun text => rfl, by decide, fun text => rfl, by decide⟩

/-- C10: the consistency repair changes at most `end_percentage` — on every
input text each of the other twelve fields of the returned record equals its
pre-repair value — and the repair is a no-op whenever any of the three
percentage strings does not parse as an integer. -/
theorem C10_repair_frame :
    (∀ text : Str,
      (extract_record_from_text text).lookup "date".toList =
        (extract_record_pre text).lookup "date".toList ∧
      (extract_record_from_text text).lookup "charger_name".toList =
        (extract_record_pre text).lookup "charger_name".toList ∧
      (extract_record_from_text text).lookup "charger_location".toList =
        (extract_record_pre text).lookup "charger_location".toList ∧
      (extract_record_from_text text).lookup "duration_minutes".toList =
        (extract_record_pre text).lookup "duration_minutes".toList ∧
      (extract_record_from_text text).lookup "kwh_added".toList =
        (extract_record_pre text).lookup "kwh_added".toList ∧
      (extract_record_from_text text).lookup "charge_percentage".toList =
        (extract_record_pre text).lookup "charge_percentage".toList ∧
      (extract_record_from_text text).lookup "charge_miles".toList =
        (extract_record_pre text).lookup "charge_miles".toList ∧
      (extract_record_from_text text).lookup "start_time".toList =
        (extract_record_pre text).lookup "start_time".toList ∧
      (extract_record_from_text text).lookup "end_time".toList =
        (extract_record_pre text).lookup "end_time".toList ∧
      (extract_record_from_text text).lookup "start_percentage".toList =
        (extract_record_pre text).lookup "start_percentage".toList ∧
      (extract_record_from_text text).lookup "cost".toList =
        (extract_record_pre text).lookup "cost".toList ∧
      (extract_record_from_text text).lookup "charger_brand".toList =
        (extract_record_pre text).lookup "charger_brand".toList) ∧
    (∀ sp ep cp : Str,
      pyInt sp = none ∨ pyInt ep = none ∨ pyInt cp = none →
      repair_end_pct sp ep cp = ep) := by
  constructor
  · intro text
    exact ⟨rfl, rfl, rfl, rfl, rfl, rfl, rfl, rfl, rfl, rfl, rfl, rfl⟩
  · intro sp ep cp h
    by_cases hg : (!sp.isEmpty && !ep.isEmpty && !cp.isEmpty) = true
    · rw [repair_end_pct, if_pos hg]
      cases hsp : pyInt sp <;> cases hep : pyInt ep <;> cases hcp : pyInt cp <;>
        try rfl
      rcases h with h | h | h <;> simp_all
    · rw [repair_end_pct, if_neg hg]

/-- C3: whenever the three percentage strings parse as integers and the
mismatch `|start + delta − end|` is at least 10, the repair replaces the end
percentage by `end + off` for the offset `off` in
±{30,40,50,60,70,80} satisfying `end + off = start + delta` and
`0 ≤ end + off ≤ 100` when such an offset exists, and leaves the end
percentage as extracted when no offset in that set qualifies. -/
theorem C3_consistency_repair :
    ∀ (sp ep cp : Str) (s e c : Int),
      pyInt sp = some s → pyInt ep = some e → pyInt cp = some c →
      10 ≤ (s + c - e).natAbs →
      ((∀ off : Int, off ∈ ([30, 40, 50, 60, 70, 80,
          -30, -40, -50, -60, -70, -80] : List Int) →
          ¬(e + off = s + c ∧ 0 ≤ e + off ∧ e + off ≤ 100)) →
        repair_end_pct sp ep cp = ep) ∧
      (∀ off : Int, off ∈ ([30, 40, 50, 60, 70, 80,
          -30, -40, -50, -60, -70, -80] : List Int) →
        e + off = s + c → 0 ≤ e + off → e + off ≤ 100 →
        repair_end_pct sp ep cp = intToStr (e + off)) := by
  intro sp ep cp s e c hsp hep hcp habs
  have hne : ∀ (t : Str) (v : Int), pyInt t = some v → t.isEmpty = false := by
    intro t v hv
    cases t with
    | nil => rw [show pyInt [] = none from rfl] at hv; exact absurd hv (by simp)
    | cons x xs => rfl
  have hg : (!sp.isEmpty && !ep.isEmpty && !cp.isEmpty) = true := by
    simp [hne sp s hsp, hne ep e hep, hne cp c hcp]
  constructor
  · intro hnone
    rw [repair_end_pct, if_pos hg, hsp, hep, hcp]
    simp only
    rw [if_pos habs]
    have hfind : corrections.find? (fun c2 =>
        e + c2 == s + c && decide (0 ≤ e + c2) && decide (e + c2 ≤ 100)) = none := by
      rw [List.find?_eq_none]
      intro x hx
      have hmem : x ∈ ([30, 40, 50, 60, 70, 80,
          -30, -40, -50, -60, -70, -80] : List Int) := by
        simp only [corrections, List.mem_cons, List.not_mem_nil, or_false] at hx
        rcases hx with rfl | rfl | rfl | rfl | rfl | rfl | rfl | rfl | rfl | rfl | rfl | rfl <;>
          decide
      simp only [Bool.and_eq_true, beq_iff_eq, decide_eq_true_eq]
      rintro ⟨⟨h1, h2⟩, h3⟩
      exact hnone x hmem ⟨h1, h2, h3⟩
    rw [hfind]
  · intro off hoff heq h0 h100
    rw [repair_end_pct, if_pos hg, hsp, hep, hcp]
    simp only
    rw [if_pos habs]
    have hoffc : off ∈ corrections := by
      simp only [List.mem_cons, List.not_mem_nil, or_false] at hoff
      rcases hoff with rfl | rfl | rfl | rfl | rfl | rfl | rfl | rfl | rfl | rfl | rfl | rfl <;>
        decide
    cases hfind : corrections.find? (fun c2 =>
        e + c2 == s + c && decide (0 ≤ e + c2) && decide (e + c2 ≤ 100)) with
    | none =>
      exfalso
      have := List.find?_eq_none.mp hfind off hoffc
      apply this
      simp only [Bool.and_eq_true, beq_iff_eq, decide_eq_true_eq]
      exact ⟨⟨heq, h0⟩, h100⟩
    | some c2 =>
      have hp := List.find?_some hfind
      simp only [Bool.and_eq_true, beq_iff_eq, decide_eq_true_eq] at hp
      have : c2 = off := by omega
      rw [this]

/-- C3, witness: with start "71", delta "29" and end mis-read as "30", the
offset +70 qualifies and the repair yields "100"; with end "19" no offset in
the set reconciles the sum and the value is kept. -/
theorem C3_consistency_repair_witness :
    repair_end_pct "71".toList "30".toList "29".toList = "100".toList ∧
    repair_end_pct "71".toList "19".toList "29".toList = "19".toList := by
  constructor
  · have h := (C3_consistency_repair "71".toList "30".toList "29".toList 71 30 29
      (by decide) (by decide) (by decide) (by decide)).2 70 (by decide)
      (by decide) (by decide) (by decide)
    exact h.trans (by decide)
  · exact (C3_consistency_repair "71".toList "19".toList "29".toList 71 19 29
      (by decide) (by decide) (by decide) (by decide)).1 (by decide)

/-- C10, witness: a concrete field untouched by the repair, and a concrete
repair no-op on an unparseable percentage string. -/
theorem C10_repair_frame_witness :
    (extract_record_from_text istScenario).lookup "date".toList =
      (extract_record_pre istScenario).lookup "date".toList ∧
    repair_end_pct "x".toList "5".toList "3".toList = "5".toList :=
  ⟨(C10_repair_frame.1 istScenario).1,
   C10_repair_frame.2 "x".toList "5".toList "3".toList (Or.inl (by decide))⟩

/-- Unfolding equation for the dedup loop of `write_csv`. -/
theorem merge_new_cons (seen : List (Str × Str × Str)) (r : CsvRow) (rest : List CsvRow) :
    merge_new seen (r :: rest) =
      if seen.contains (dedup_key r) = true then merge_new seen rest
      else r :: merge_new (dedup_key r :: seen) rest := rfl

/-- C8: the ledger merge is idempotent under the dedup key — appending the
same record twice in one batch adds it once, and re-merging a record into
the ledger produced by merging it is a no-op. -/
theorem C8_merge_idempotent :
    ∀ (existing : List CsvRow) (r : CsvRow),
      write_csv_rows existing [r, r] = write_csv_rows existing [r] ∧
      write_csv_rows (write_csv_rows existing [r]) [r] = write_csv_rows existing [r] := by
  intro existing r
  have hself : ∀ seen : List (Str × Str × Str),
      (dedup_key r :: seen).contains (dedup_key r) = true := by
    intro seen
    simp [List.contains_cons]
  have hmerge2 : ∀ seen : List (Str × Str × Str),
      merge_new seen [r, r] = merge_new seen [r] := by
    intro seen
    by_cases h : seen.contains (dedup_key r) = true
    · rw [merge_new_cons, if_pos h, merge_new_cons, if_pos h]
    · have lhs : merge_new seen [r, r] = [r] := by
        rw [merge_new_cons, if_neg h, merge_new_cons, if_pos (hself seen)]
        rfl
      have rhs : merge_new seen [r] = [r] := by
        rw [merge_new_cons, if_neg h]
        rfl
      rw [lhs, rhs]
  constructor
  · show List.insertionSort rowRel (existing ++ merge_new (existing.map dedup_key) [r, r]) = _
    rw [hmerge2]
    rfl
  · have hsorted : List.Sorted rowRel (write_csv_rows existing [r]) :=
      List.sorted_insertionSort rowRel _
    have hperm : (write_csv_rows existing [r]).Perm
        (existing ++ merge_new (existing.map dedup_key) [r]) :=
      List.perm_insertionSort rowRel _
    have hmem : dedup_key r ∈
        (existing ++ merge_new (existing.map dedup_key) [r]).map dedup_key := by
      by_cases h : (existing.map dedup_key).contains (dedup_key r) = true
      · rw [List.map_append]
        exact List.mem_append_left _ (List.elem_iff.mp h)
      · have hone : merge_new (existing.map dedup_key) [r] = [r] := by
          rw [merge_new_cons, if_neg h]
          rfl
        rw [List.map_append, hone]
        exact List.mem_append_right _ (by simp)
    have hkey : dedup_key r ∈ (write_csv_rows existing [r]).map dedup_key :=
      ((hperm.map dedup_key).mem_iff).mpr hmem
    have hnomerge : merge_new ((write_csv_rows existing [r]).map dedup_key) [r] = [] := by
      rw [merge_new_cons, if_pos (List.elem_iff.mpr hkey)]
      rfl
    show List.insertionSort rowRel ((write_csv_rows existing [r]) ++
        merge_new ((write_csv_rows existing [r]).map dedup_key) [r]) = _
    rw [hnomerge, List.append_nil]
    exact List.Sorted.insertionSort_eq hsorted

/-- Value bound of an ASCII digit. -/
theorem digitVal_le_nine (c : Char) (h : c.isDigit = true) : digitVal c ≤ 9 := by
  unfold Char.isDigit at h
  simp only [Bool.and_eq_true, decide_eq_true_eq, ge_iff_le] at h
  obtain ⟨h1, h2⟩ := h
  show c.val.toNat - '0'.val.toNat ≤ 9
  have ha : (48 : UInt32).toNat ≤ c.val.toNat := h1
  have hb : c.val.toNat ≤ (57 : UInt32).toNat := h2
  have h48 : (48 : UInt32).toNat = 48 := rfl
  have h57 : (57 : UInt32).toNat = 57 := rfl
  have h0 : ('0' : Char).val.toNat = 48 := rfl
  omega

/-- Range of a parsed `%Y`. -/
theorem yearTok_le (s : Str) (v : Nat) (r : Str) (h : yearTok s = some (v, r)) :
    v ≤ 9999 := by
  unfold yearTok at h
  split at h
  next a b c d rest =>
    split at h
    · next hd =>
      simp only [Bool.and_eq_true] at hd
      obtain ⟨⟨⟨ha, hb⟩, hc⟩, hdd⟩ := hd
      have := digitVal_le_nine a ha
      have := digitVal_le_nine b hb
      have := digitVal_le_nine c hc
      have := digitVal_le_nine d hdd
      simp only [Option.some.injEq, Prod.mk.injEq] at h
      omega
    · cases h
  next => cases h

/-- A parsed two-or-one-digit field satisfies its two-digit side condition or
is a single digit. -/
theorem numTok2_le (ok2 ok1 : Nat → Bool) (s : Str) (v : Nat) (r : Str)
    (h : numTok2 ok2 ok1 s = some (v, r)) : ok2 v = true ∨ v ≤ 9 := by
  unfold numTok2 at h
  split at h
  next a b rest =>
    split at h
    · dsimp only [] at h
      split at h
      · left
        simp only [Option.some.injEq, Prod.mk.injEq] at h
        rcases h with ⟨rfl, -⟩
        assumption
      · cases h
    · split at h
      · right
        simp only [Option.some.injEq, Prod.mk.injEq] at h
        rcases h with ⟨rfl, -⟩
        next hd =>
          simp only [Bool.and_eq_true] at hd
          exact digitVal_le_nine a hd.1
      · cases h
  next a =>
    split at h
    · right
      simp only [Option.some.injEq, Prod.mk.injEq] at h
      rcases h with ⟨rfl, -⟩
      next hd =>
        simp only [Bool.and_eq_true] at hd
        exact digitVal_le_nine a hd.1
    · cases h
  next => cases h

/-- Range of a parsed `%d`. -/
theorem dayTok_le (s : Str) (v : Nat) (r : Str) (h : dayTok s = some (v, r)) :
    v ≤ 31 := by
  unfold dayTok at h
  split at h
  next a b rest =>
    split at h
    · dsimp only [] at h
      split at h
      · next hv =>
        simp only [Bool.and_eq_true, decide_eq_true_eq] at hv
        simp only [Option.some.injEq, Prod.mk.injEq] at h
        omega
      · cases h
    · split at h
      · next hd =>
        simp only [Bool.and_eq_true, decide_eq_true_eq] at hd
        have := digitVal_le_nine a hd.1
        simp only [Option.some.injEq, Prod.mk.injEq] at h
        omega
      · cases h
  next a =>
    split at h
    · next hd =>
      simp only [Bool.and_eq_true, decide_eq_true_eq] at hd
      have := digitVal_le_nine a hd.1
      simp only [Option.some.injEq, Prod.mk.injEq] at h
      omega
    · cases h
  next => cases h

/-- Range of a parsed `%m`. -/
theorem monthTok_le (s : Str) (v : Nat) (r : Str) (h : monthTok s = some (v, r)) : v ≤ 12 := by
  unfold monthTok at h
  rcases numTok2_le _ _ _ _ _ h with h2 | h2
  · simp only [Bool.and_eq_true, decide_eq_true_eq] at h2
    exact h2.2
  · omega

/-- Range of a parsed `%H`. -/
theorem hourTok24_le (s : Str) (v : Nat) (r : Str) (h : hourTok24 s = some (v, r)) : v ≤ 23 := by
  unfold hourTok24 at h
  rcases numTok2_le _ _ _ _ _ h with h2 | h2
  · simpa using h2
  · omega

/-- Range of a parsed `%M`. -/
theorem minuteTok_le (s : Str) (v : Nat) (r : Str) (h : minuteTok s = some (v, r)) : v ≤ 59 := by
  unfold minuteTok at h
  rcases numTok2_le _ _ _ _ _ h with h2 | h2
  · simpa using h2
  · omega

/-- Range of a parsed `%I`. -/
theorem hourTok12_le (s : Str) (v : Nat) (r : Str) (h : hourTok12 s = some (v, r)) : v ≤ 12 := by
  unfold hourTok12 at h
  rcases numTok2_le _ _ _ _ _ h with h2 | h2
  · simp only [Bool.and_eq_true, decide_eq_true_eq] at h2
    exact h2.2
  · omega

/-- The 12-to-24-hour conversion stays below 24. -/
theorem hour12to24_le (pm : Bool) (h12 : Nat) (hh : h12 ≤ 12) : hour12to24 pm h12 ≤ 23 := by
  unfold hour12to24
  split
  · split
    · next hne => simp only [bne_iff_ne, ne_eq] at hne; omega
    · omega
  · split <;> omega

/-- Component ranges of a parsed `%Y-%m-%d`. -/
theorem ymdTok_bounds (s : Str) (y m d : Nat) (r : Str)
    (h : ymdTok s = some (y, m, d, r)) : y ≤ 9999 ∧ m ≤ 12 ∧ d ≤ 31 := by
  unfold ymdTok at h
  split at h
  · cases h
  next yv r1 hy =>
    split at h
    next r2 =>
      split at h
      · cases h
      next mv r3 hm =>
        split at h
        next r4 =>
          split at h
          · cases h
          next dv r5 hd =>
            simp only [Option.some.injEq, Prod.mk.injEq] at h
            obtain ⟨rfl, rfl, rfl, rfl⟩ := h
            exact ⟨yearTok_le _ _ _ hy, monthTok_le _ _ _ hm, dayTok_le _ _ _ hd⟩
        next => cases h
    next => cases h

/-- Component ranges of a `"%Y-%m-%d %H:%M"` parse. -/
theorem strptime_ymd_HM_bounds (s : Str) (dt : DT) (h : strptime_ymd_HM s = some dt) :
    dt.y ≤ 9999 ∧ dt.mo ≤ 12 ∧ dt.d ≤ 31 ∧ dt.h ≤ 23 ∧ dt.mi ≤ 59 ∧ dt.s ≤ 59 := by
  unfold strptime_ymd_HM at h
  split at h
  next y mo d r hy =>
    split at h
    next r1 hw =>
      split at h
      next hv r2 hh =>
        split at h
        next mi hm =>
          split at h
          next hvalid =>
            cases h
            obtain ⟨hy1, hy2, hy3⟩ := ymdTok_bounds _ _ _ _ _ hy
            exact ⟨hy1, hy2, hy3, hourTok24_le _ _ _ hh, minuteTok_le _ _ _ hm,
              Nat.zero_le _⟩
          next => cases h
        next => cases h
      next => cases h
    next => cases h
  next => cases h

/-- Component ranges of a `"%Y-%m-%d %H:%M:%S"` parse. -/
theorem strptime_ymd_HMS_bounds (s : Str) (dt : DT) (h : strptime_ymd_HMS s = some dt) :
    dt.y ≤ 9999 ∧ dt.mo ≤ 12 ∧ dt.d ≤ 31 ∧ dt.h ≤ 23 ∧ dt.mi ≤ 59 ∧ dt.s ≤ 59 := by
  unfold strptime_ymd_HMS at h
  split at h
  next y mo d r hy =>
    split at h
    next r1 hw =>
      split at h
      next hv r2 hh =>
        split at h
        next mi r3 hm =>
          split at h
          next sec hsec =>
            split at h
            next hvalid =>
              cases h
              obtain ⟨hy1, hy2, hy3⟩ := ymdTok_bounds _ _ _ _ _ hy
              simp only [validDT, Bool.and_eq_true, decide_eq_true_eq] at hvalid
              exact ⟨hy1, hy2, hy3, hourTok24_le _ _ _ hh, minuteTok_le _ _ _ hm,
                hvalid.2⟩
            next => cases h
          next => cases h
        next => cases h
      next => cases h
    next => cases h
  next => cases h

/-- Component ranges of a `"%Y-%m-%d %I:%M %p"` parse. -/
theorem strptime_ymd_IMp_bounds (s : Str) (dt : DT) (h : strptime_ymd_IMp s = some dt) :
    dt.y ≤ 9999 ∧ dt.mo ≤ 12 ∧ dt.d ≤ 31 ∧ dt.h ≤ 23 ∧ dt.mi ≤ 59 ∧ dt.s ≤ 59 := by
  unfold strptime_ymd_IMp at h
  split at h
  next y mo d r hy =>
    split at h
    next r1 hw =>
      split at h
      next h12 r2 hh =>
        split at h
        next mi r3 hm =>
          split at h
          next r4 hw2 =>
            split at h
            next pm hp =>
              dsimp only [] at h
              split at h
              next hvalid =>
                cases h
                obtain ⟨hy1, hy2, hy3⟩ := ymdTok_bounds _ _ _ _ _ hy
                exact ⟨hy1, hy2, hy3,
                  hour12to24_le pm h12 (hourTok12_le _ _ _ hh),
                  minuteTok_le _ _ _ hm, Nat.zero_le _⟩
              next => cases h
            next => cases h
          next => cases h
        next => cases h
      next => cases h
    next => cases h
  next => cases h

/-- Component ranges of a `"%Y-%m-%d %I:%M%p"` parse. -/
theorem strptime_ymd_IMp2_bounds (s : Str) (dt : DT) (h : strptime_ymd_IMp2 s = some dt) :
    dt.y ≤ 9999 ∧ dt.mo ≤ 12 ∧ dt.d ≤ 31 ∧ dt.h ≤ 23 ∧ dt.mi ≤ 59 ∧ dt.s ≤ 59 := by
  unfold strptime_ymd_IMp2 at h
  split at h
  next y mo d r hy =>
    split at h
    next r1 hw =>
      split at h
      next h12 r2 hh =>
        split at h
        next mi r3 hm =>
          split at h
          next pm hp =>
            dsimp only [] at h
            split at h
            next hvalid =>
              cases h
              obtain ⟨hy1, hy2, hy3⟩ := ymdTok_bounds _ _ _ _ _ hy
              exact ⟨hy1, hy2, hy3,
                hour12to24_le pm h12 (hourTok12_le _ _ _ hh),
                minuteTok_le _ _ _ hm, Nat.zero_le _⟩
            next => cases h
          next => cases h
        next => cases h
      next => cases h
    next => cases h
  next => cases h

/-- Component ranges of a date-only `"%Y-%m-%d"` parse. -/
theorem strptime_ymd_bounds (s : Str) (dt : DT) (h : strptime_ymd s = some dt) :
    dt.y ≤ 9999 ∧ dt.mo ≤ 12 ∧ dt.d ≤ 31 ∧ dt.h ≤ 23 ∧ dt.mi ≤ 59 ∧ dt.s ≤ 59 := by
  unfold strptime_ymd at h
  split at h
  next y mo d hy =>
    split at h
    next hvalid =>
      cases h
      obtain ⟨hy1, hy2, hy3⟩ := ymdTok_bounds _ _ _ _ _ hy
      exact ⟨hy1, hy2, hy3, Nat.zero_le _, Nat.zero_le _, Nat.zero_le _⟩
    next => cases h
  next => cases h

/-- Every datetime `_parse_row_datetime` produces has in-range components. -/
theorem parse_row_datetime_bounds (ds ts : Str) (dt : DT)
    (h : parse_row_datetime ds ts = some dt) :
    dt.y ≤ 9999 ∧ dt.mo ≤ 12 ∧ dt.d ≤ 31 ∧ dt.h ≤ 23 ∧ dt.mi ≤ 59 ∧ dt.s ≤ 59 := by
  unfold parse_row_datetime at h
  split at h
  · cases h
  · dsimp only [] at h
    split at h
    next dt2 hv =>
      have hdt : dt2 = dt := by injection h
      subst hdt
      split at hv
      · split at hv
        next dt3 hfmt =>
          have h3 : dt3 = dt2 := by injection hv
          subst h3
          exact strptime_ymd_HM_bounds _ _ hfmt
        next =>
          split at hv
          next dt3 hfmt =>
            have h3 : dt3 = dt2 := by injection hv
            subst h3
            exact strptime_ymd_HMS_bounds _ _ hfmt
          next =>
            split at hv
            next dt3 hfmt =>
              have h3 : dt3 = dt2 := by injection hv
              subst h3
              exact strptime_ymd_IMp_bounds _ _ hfmt
            next => exact strptime_ymd_IMp2_bounds _ _ hv
      · cases hv
    next hv => exact strptime_ymd_bounds _ _ h

/-- The key of every parsed datetime lies strictly below the
`datetime.max` key given to unparseable rows. -/
theorem dtKey_lt_max (dt : DT)
    (hb : dt.y ≤ 9999 ∧ dt.mo ≤ 12 ∧ dt.d ≤ 31 ∧ dt.h ≤ 23 ∧ dt.mi ≤ 59 ∧ dt.s ≤ 59) :
    dtKey dt 0 < dtMaxKey := by
  obtain ⟨h1, h2, h3, h4, h5, h6⟩ := hb
  unfold dtMaxKey dtKey
  dsimp only []
  omega

/-- C9: every merged ledger is sorted ascending by `row_sort_key` (parsed
datetime from date plus start_time, then location case-insensitively, then
name case-insensitively); a row with a parseable date always precedes, and is
never preceded by, a row whose date is missing or unparseable; and for the
three concrete records dated 2025-12-16, 2026-01-01 and one with an empty
date, the empty-date record sorts last in all six input orders. -/
theorem C9_sort_order :
    (∀ existing rows : List CsvRow,
      (write_csv_rows existing rows).Pairwise rowRel) ∧
    (∀ (a b : CsvRow) (dt : DT),
      parse_row_datetime (pyStrip a.date) (pyStrip a.start_time) = some dt →
      parse_row_datetime (pyStrip b.date) (pyStrip b.start_time) = none →
      rowLE a b = true ∧ rowLE b a = false) ∧
    threeRowPerms.all
      (fun l => (write_csv_rows [] l).getLast? == some rowNoDate) = true := by
  refine ⟨fun existing rows => List.sorted_insertionSort rowRel _, ?_, by decide⟩
  intro a b dt hpa hpb
  have hlt : dtKey dt 0 < dtMaxKey := dtKey_lt_max dt (parse_row_datetime_bounds _ _ _ hpa)
  have hka : row_sort_key a = toLex (dtKey dt 0,
      toLex (pyLower (pyStrip a.charger_location), pyLower (pyStrip a.charger_name))) := by
    unfold row_sort_key
    rw [hpa]
  have hkb : row_sort_key b = toLex (dtMaxKey,
      toLex (pyLower (pyStrip b.charger_location), pyLower (pyStrip b.charger_name))) := by
    unfold row_sort_key
    rw [hpb]
  constructor
  · simp only [rowLE, decide_eq_true_eq, hka, hkb]
    exact le_of_lt (Prod.Lex.left _ _ hlt)
  · simp only [rowLE, hka, hkb, decide_eq_false_iff_not]
    exact not_le.mpr (Prod.Lex.left _ _ hlt)

/-- C9, witness: the concrete parseable row `rowDec16` sorts before and never
after the empty-date row `rowNoDate`. -/
theorem C9_sort_order_witness :
    rowLE rowDec16 rowNoDate = true ∧ rowLE rowNoDate rowDec16 = false :=
  C9_sort_order.2.1 rowDec16 rowNoDate ⟨2025, 12, 16, 12, 0, 0⟩ (by decide) (by decide)
